import Mathlib

/-!
Shallow embedding of the core of the sc-machine semantic-graph storage engine
(`src/sc-memory/src/sc-store/sc_storage.c`), together with theorems settling
the frozen claims about it.

The embedding is sequential: there is a single memory context, so every
blocking lock acquisition succeeds and a per-slot lock is re-acquirable by
the running context (lock counting); the `locks` field of the storage state
is the multiset of currently held per-slot locks.  Assertion failures
(`g_assert`) and executions that the C code cannot complete (null
dereference, unbounded retry) are modelled by returning `none`.

Constants and segment-level primitives whose definitions live in headers
that are not part of the given sources (`sc_types.h`, `sc_segment.h`) are
modelled from the spec; each such definition carries a doc comment starting
with "Modelled from the spec".
-/

namespace ScStore

/-- Result codes of the storage façade (`sc_result`). -/
inductive ScResult where
  | ok
  | error
  | errorInvalidParams
  | errorInvalidType
deriving DecidableEq, Repr

/-- Packed element address: a (segment, offset) pair (`sc_addr`). -/
structure ScAddr where
  seg : Nat
  offset : Nat
deriving DecidableEq, Repr

/-- The distinguished empty address (`SC_ADDR_MAKE_EMPTY` zeroes both parts). -/
def ScAddr.empty : ScAddr := ⟨0, 0⟩

/-- Emptiness test on addresses (`SC_ADDR_IS_EMPTY`). -/
def ScAddr.isEmpty (a : ScAddr) : Bool := a.seg == 0 && a.offset == 0

/-- Modelled from the spec: `sc_types.h` is not among the given sources.  The
spec's data model says the `type` bitmask carries an element class that is
exactly one of node, link, arc-common or arc-member flags; these are the
class bits.  Node class bit. -/
def sc_type_node : Nat := 0x1

/-- Modelled from the spec: link class bit. -/
def sc_type_link : Nat := 0x2

/-- Modelled from the spec: undirected common edge class bit. -/
def sc_type_edge_common : Nat := 0x4

/-- Modelled from the spec: common arc class bit (the default class ORed in
by `sc_storage_arc_new` when the requested type has no arc-class bits). -/
def sc_type_arc_common : Nat := 0x8

/-- Modelled from the spec: membership ("access") arc class bit. -/
def sc_type_arc_access : Nat := 0x10

/-- Modelled from the spec: mask of the connector (arc) class bits, used by
the source as `sc_type_arc_mask`. -/
def sc_type_arc_mask : Nat := sc_type_edge_common ||| sc_type_arc_common ||| sc_type_arc_access

/-- Modelled from the spec: mask of all element-class bits, used by the
source as `sc_type_element_mask`. -/
def sc_type_element_mask : Nat := sc_type_node ||| sc_type_link ||| sc_type_arc_mask

/-- Modelled from the spec: element types are 16-bit (`sc_type` is
`sc_uint16`); this mask selects the non-class bits of a 16-bit type, the
value of the C expression `(sc_type)~sc_type_element_mask`. -/
def sc_type_not_element_mask : Nat := 0xFFFF ^^^ sc_type_element_mask

/-- Modelled from the spec: the fixed length of a link content checksum
(`SC_CHECKSUM_LEN`). -/
def SC_CHECKSUM_LEN : Nat := 32

/-- An element slot (`sc_element`): type flags, the arc payload
(`begin`/`end` endpoints and the four intrusive list pointers), the two
incident-arc list heads and the link content checksum bytes. -/
structure ScElement where
  type : Nat
  begin : ScAddr
  end_ : ScAddr
  prev_out_arc : ScAddr
  next_out_arc : ScAddr
  prev_in_arc : ScAddr
  next_in_arc : ScAddr
  first_out_arc : ScAddr
  first_in_arc : ScAddr
  content : List Nat
deriving DecidableEq, Repr

/-- The all-zero element record: what `memset(&el, 0, sizeof(el))` produces. -/
def scElementZero : ScElement :=
  { type := 0
    begin := ScAddr.empty
    end_ := ScAddr.empty
    prev_out_arc := ScAddr.empty
    next_out_arc := ScAddr.empty
    prev_in_arc := ScAddr.empty
    next_in_arc := ScAddr.empty
    first_out_arc := ScAddr.empty
    first_in_arc := ScAddr.empty
    content := List.replicate SC_CHECKSUM_LEN 0 }

/-- Modelled from the spec: segments are fixed-capacity slot arrays; the
capacity constant lives in `sc_segment.h`, which is not among the given
sources.  Any fixed positive capacity is faithful to the spec; we use 4. -/
def scSegmentElements : Nat := 4

/-- Modelled from the spec: maximal number of addressable segments
(`SC_ADDR_SEG_MAX`, the capacity of the global `segments` array); segment
indices are 16-bit. -/
def scAddrSegMax : Nat := 65536

/-- A segment (`sc_segment`): its index plus its slot array. -/
structure ScSegment where
  num : Nat
  elements : List ScElement
deriving DecidableEq, Repr

/-- New segment (`sc_segment_new`): all slots start empty (zeroed). -/
def sc_segment_new (num : Nat) : ScSegment :=
  ⟨num, List.replicate scSegmentElements scElementZero⟩

/-- Event kinds emitted through `sc_event_emit`. -/
inductive ScEventType where
  | addOutputArc
  | addInputArc
  | removeOutputArc
  | removeInputArc
  | removeElement
deriving DecidableEq, Repr

/-- An entry of the event-sink trace: either the per-element
`sc_event_notify_element_deleted` hook or an `sc_event_emit` call with its
subscriber element and argument address. -/
inductive ScEvent where
  | notifyElementDeleted (addr : ScAddr)
  | emitted (el : ScAddr) (etype : ScEventType) (arg : ScAddr)
deriving DecidableEq, Repr

/-- Modelled from the spec: the size of the empty-slot segment cache
(`SC_SEGMENT_CACHE_SIZE`, "a small constant (e.g. 16)"). -/
def SC_SEGMENT_CACHE_SIZE : Nat := 16

/-- The sequential storage state: the published segment table (a dense
prefix, so `segments_num = segments.length`), the `max_loaded_segments`
configuration value, the empty-slot cache (entries are segment indices) with
its counter, the multiset of held per-slot locks, and the trace of events
delivered to the event sink. -/
structure ScStorage where
  segments : List ScSegment
  maxLoadedSegments : Nat
  cache : List (Option Nat)
  cacheCount : Nat
  locks : List ScAddr
  events : List ScEvent
deriving DecidableEq, Repr

/-- Update index `i` of a list in place; out-of-range indices leave the list
unchanged. -/
def listUpd {α : Type} (xs : List α) (i : Nat) (f : α → α) : List α :=
  match xs, i with
  | [], _ => []
  | x :: t, 0 => f x :: t
  | x :: t, n + 1 => x :: listUpd t n f

/-- Remove the first occurrence of an address from a list. -/
def removeFirst (a : ScAddr) : List ScAddr → List ScAddr
  | [] => []
  | x :: t => if x = a then t else x :: removeFirst a t

/-- Read the slot an address refers to, if its segment is published and the
offset is within the segment. -/
def ScStorage.getEl (s : ScStorage) (a : ScAddr) : Option ScElement :=
  match s.segments[a.seg]? with
  | none => none
  | some seg => seg.elements[a.offset]?

/-- Apply a field update to the slot an address refers to (no-op when the
address does not resolve). -/
def ScStorage.setEl (s : ScStorage) (a : ScAddr) (f : ScElement → ScElement) : ScStorage :=
  { s with
    segments := listUpd s.segments a.seg
      (fun seg => { seg with elements := listUpd seg.elements a.offset f }) }

/-- Record acquisition of the per-slot lock of an address. -/
def ScStorage.lockAdd (s : ScStorage) (a : ScAddr) : ScStorage :=
  { s with locks := a :: s.locks }

/-- Record release of one acquisition of the per-slot lock of an address. -/
def ScStorage.lockDel (s : ScStorage) (a : ScAddr) : ScStorage :=
  { s with locks := removeFirst a s.locks }

/-- Append an event to the sink trace. -/
def ScStorage.emitEvent (s : ScStorage) (e : ScEvent) : ScStorage :=
  { s with events := s.events ++ [e] }

/-- `sc_storage_element_lock`: bounds-check the segment index, resolve the
segment (null for unpublished indices) and acquire the per-slot lock.  In
the sequential embedding acquisition by the single running context always
succeeds (per-context lock counting); an out-of-range offset — which the C
code could not execute meaningfully — yields no element. -/
def sc_storage_element_lock (s : ScStorage) (addr : ScAddr) :
    ScResult × Option ScElement × ScStorage :=
  if scAddrSegMax ≤ addr.seg then (ScResult.error, none, s)
  else
    match s.segments[addr.seg]? with
    | none => (ScResult.error, none, s)
    | some seg =>
      match seg.elements[addr.offset]? with
      | none => (ScResult.ok, none, s)
      | some el => (ScResult.ok, some el, s.lockAdd addr)

/-- `sc_storage_element_lock_try`: in the sequential embedding the bounded
number of attempts always suffices, so this coincides with the blocking
variant. -/
def sc_storage_element_lock_try (s : ScStorage) (addr : ScAddr) (_maxAttempts : Nat) :
    ScResult × Option ScElement × ScStorage :=
  sc_storage_element_lock s addr

/-- `sc_storage_element_unlock`. -/
def sc_storage_element_unlock (s : ScStorage) (addr : ScAddr) : ScResult × ScStorage :=
  if scAddrSegMax ≤ addr.seg then (ScResult.error, s)
  else
    match s.segments[addr.seg]? with
    | none => (ScResult.error, s)
    | some _ => (ScResult.ok, s.lockDel addr)

/-- `s_max_storage_lock_attempts`. -/
def s_max_storage_lock_attempts : Nat := 100

/-- Cache probe position: the C macro `CONCURRENCY_TO_CACHE_IDX` starts the
probe at `ctx->id mod SC_SEGMENT_CACHE_SIZE` and steps forward cyclically. -/
def cacheProbe (ctx i : Nat) : Nat :=
  (ctx % SC_SEGMENT_CACHE_SIZE + i) % SC_SEGMENT_CACHE_SIZE

/-- `_sc_segment_cache_append`: CAS the first free cache slot (probing from
the context's index) to the given segment, bumping the counter; a full cache
discards the segment silently. -/
def _sc_segment_cache_append (ctx segNum : Nat) (s : ScStorage) : ScStorage :=
  match (List.range SC_SEGMENT_CACHE_SIZE).find?
      (fun i => ((s.cache[cacheProbe ctx i]?).getD none).isNone) with
  | some i =>
    { s with
      cache := listUpd s.cache (cacheProbe ctx i) (fun _ => some segNum)
      cacheCount := s.cacheCount + 1 }
  | none => s

/-- `_sc_segment_cache_remove`: clear the first cache slot holding the given
segment, decrementing the counter. -/
def _sc_segment_cache_remove (ctx segNum : Nat) (s : ScStorage) : ScStorage :=
  match (List.range SC_SEGMENT_CACHE_SIZE).find?
      (fun i => (s.cache[cacheProbe ctx i]?).getD none == some segNum) with
  | some i =>
    { s with
      cache := listUpd s.cache (cacheProbe ctx i) (fun _ => none)
      cacheCount := s.cacheCount - 1 }
  | none => s

/-- Modelled from the spec: `sc_segment_has_empty_slot` lives in the missing
`sc_segment.c`; per the spec it is a hint query for "some slot has
`type == 0`" with no false positives.  The spec also reserves the empty
address as a sentinel, so slot 0 of segment 0 is never handed out. -/
def sc_segment_has_empty_slot (seg : ScSegment) : Bool :=
  ((List.range scSegmentElements).find? (fun i =>
    !(seg.num == 0 && i == 0) &&
      (match seg.elements[i]? with
       | some el => el.type == 0
       | none => false))).isSome

/-- Modelled from the spec: the offset `sc_segment_lock_empty_element` would
lock and return — the first slot with `type == 0`, never the reserved
sentinel slot 0 of segment 0. -/
def segmentEmptySlot (seg : ScSegment) : Option Nat :=
  (List.range scSegmentElements).find? (fun i =>
    !(seg.num == 0 && i == 0) &&
      (match seg.elements[i]? with
       | some el => el.type == 0
       | none => false))

/-- `_sc_segment_cache_update`: walk the published segments, appending those
with an empty slot to the cache, stopping once the cache is full. -/
def cacheUpdateList (ctx : Nat) (segs : List ScSegment) (s : ScStorage) : ScStorage :=
  match segs with
  | [] => s
  | seg :: rest =>
    let s1 := if sc_segment_has_empty_slot seg then _sc_segment_cache_append ctx seg.num s else s
    if s1.cacheCount == SC_SEGMENT_CACHE_SIZE then s1 else cacheUpdateList ctx rest s1

/-- `_sc_segment_cache_update` over the whole published prefix. -/
def _sc_segment_cache_update (ctx : Nat) (s : ScStorage) : ScStorage :=
  cacheUpdateList ctx s.segments s

/-- `_sc_segment_cache_get`: under the cache spinlock, return the first
cached segment probing from the context's index; otherwise refresh the cache
from the segment table and then — unconditionally, as the C code does —
create, publish and cache a brand-new segment and return it. -/
def _sc_segment_cache_get (ctx : Nat) (s : ScStorage) : Nat × ScStorage :=
  match (if 0 < s.cacheCount then
      (List.range SC_SEGMENT_CACHE_SIZE).findSome? (fun i => (s.cache[cacheProbe ctx i]?).getD none)
    else none) with
  | some segNum => (segNum, s)
  | none =>
    let s1 := _sc_segment_cache_update ctx s
    let s2 := { s1 with segments := s1.segments ++ [sc_segment_new s1.segments.length] }
    (s1.segments.length, _sc_segment_cache_append ctx s1.segments.length s2)

/-- The retry loop of `sc_storage_append_el_into_segments`: fetch a segment
from the cache, try to lock an empty slot in it and write the element there;
on failure drop the segment from the cache and retry.  Fuel bounds the loop
(the C loop condition is always true because of a shadowed variable). -/
def appendLoop (ctx : Nat) (element : ScElement) : Nat → ScStorage → Option ScAddr × ScStorage
  | 0, s => (none, s)
  | fuel + 1, s =>
    match _sc_segment_cache_get ctx s with
    | (segNum, s1) =>
      match s1.segments[segNum]? with
      | none => (none, s1)
      | some seg =>
        match segmentEmptySlot seg with
        | some off =>
          (some ⟨segNum, off⟩, (s1.lockAdd ⟨segNum, off⟩).setEl ⟨segNum, off⟩ (fun _ => element))
        | none => appendLoop ctx element fuel (_sc_segment_cache_remove ctx segNum s1)

/-- `sc_storage_append_el_into_segments`: refuse if the segment counter has
reached the configured maximum, else run the allocation loop.  On success
the returned address is locked and its slot holds a copy of `element`. -/
def sc_storage_append_el_into_segments (ctx : Nat) (element : ScElement) (s : ScStorage) :
    Option ScAddr × ScStorage :=
  if s.maxLoadedSegments ≤ s.segments.length then (none, s)
  else appendLoop ctx element (s.segments.length + SC_SEGMENT_CACHE_SIZE + 2) s

/-- `sc_storage_node_new`: assert the type carries no arc-class bits, write
a zeroed element with type `sc_type_node | type` into a fresh slot, unlock
it and return its address (the empty address when capacity is exhausted). -/
def sc_storage_node_new (ctx type : Nat) (s : ScStorage) : Option (ScAddr × ScStorage) :=
  if sc_type_arc_mask &&& type ≠ 0 then none
  else
    let el := { scElementZero with type := sc_type_node ||| type }
    match sc_storage_append_el_into_segments ctx el s with
    | (none, s1) => some (ScAddr.empty, s1)
    | (some addr, s1) =>
      match sc_storage_element_unlock s1 addr with
      | (ScResult.ok, s2) => some (addr, s2)
      | _ => none

/-- `sc_storage_link_new`: as `sc_storage_node_new` with type `sc_type_link`. -/
def sc_storage_link_new (ctx : Nat) (s : ScStorage) : Option (ScAddr × ScStorage) :=
  let el := { scElementZero with type := sc_type_link }
  match sc_storage_append_el_into_segments ctx el s with
  | (none, s1) => some (ScAddr.empty, s1)
  | (some addr, s1) =>
    match sc_storage_element_unlock s1 addr with
    | (ScResult.ok, s2) => some (addr, s2)
    | _ => none

/-- Back-pointer write to the previous out-head (line 639–640), guarded by
whether that head was locked. -/
def arcWriteOutPrev (addr first_out_arc : ScAddr) (fOut : Bool) (s : ScStorage) : ScStorage :=
  if fOut then s.setEl first_out_arc (fun e => { e with prev_out_arc := addr }) else s

/-- Back-pointer write to the previous in-head (line 642–643). -/
def arcWriteInPrev (addr first_in_arc : ScAddr) (fIn : Bool) (s : ScStorage) : ScStorage :=
  if fIn then s.setEl first_in_arc (fun e => { e with prev_in_arc := addr }) else s

/-- The four neighbour/head writes of `sc_storage_arc_new` (lines 639–647):
set the previous heads' back-pointers to the new arc when they exist, then
install the new arc as the head of both endpoint lists. -/
def arcWrite (addr beg end_ first_out_arc first_in_arc : ScAddr) (fOut fIn : Bool)
    (s : ScStorage) : ScStorage :=
  ((arcWriteInPrev addr first_in_arc fIn (arcWriteOutPrev addr first_out_arc fOut s)).setEl beg
    (fun e => { e with first_out_arc := addr })).setEl end_
    (fun e => { e with first_in_arc := addr })

/-- Conditional unlock, used for the two optionally-held head locks. -/
def unlockIf (c : Bool) (a : ScAddr) (s : ScStorage) : ScStorage :=
  if c then (sc_storage_element_unlock s a).2 else s

/-- The `unlock` block of `sc_storage_arc_new` on its success path (lines
649–668): release the head locks, the endpoint locks and the new slot's
lock. -/
def arcUnlockAll (addr beg end_ first_out_arc first_in_arc : ScAddr) (fOut fIn : Bool)
    (s : ScStorage) : ScStorage :=
  (sc_storage_element_unlock
    ((sc_storage_element_unlock
      (unlockIf fIn first_in_arc
        ((sc_storage_element_unlock (unlockIf fOut first_out_arc s) beg).2))
      end_).2)
    addr).2

/-- Allocation, event emission and list surgery of `sc_storage_arc_new`
(lines 620–668 of the source), entered with the endpoint and head locks
held.  `fOut`/`fIn` record whether an out-head/in-head element was locked. -/
def arcLink (ctx : Nat) (el : ScElement) (beg end_ first_out_arc first_in_arc : ScAddr)
    (fOut fIn : Bool) (s : ScStorage) : Option (ScAddr × ScStorage) :=
  match sc_storage_append_el_into_segments ctx el s with
  | (none, _) => none
  | (some addr, s5) =>
    if addr = first_in_arc then none
    else
      match ((s5.emitEvent (ScEvent.emitted beg ScEventType.addOutputArc addr)).emitEvent
          (ScEvent.emitted end_ ScEventType.addInputArc addr)).getEl beg,
        ((s5.emitEvent (ScEvent.emitted beg ScEventType.addOutputArc addr)).emitEvent
          (ScEvent.emitted end_ ScEventType.addInputArc addr)).getEl end_ with
      | some bNow, some eNow =>
        if bNow.type = 0 ∨ eNow.type = 0 then none
        else if addr = first_out_arc ∨ addr = first_in_arc then none
        else
          some (addr, arcUnlockAll addr beg end_ first_out_arc first_in_arc fOut fIn
            (arcWrite addr beg end_ first_out_arc first_in_arc fOut fIn
              (((s5.emitEvent (ScEvent.emitted beg ScEventType.addOutputArc addr)).emitEvent
                (ScEvent.emitted end_ ScEventType.addInputArc addr)).setEl addr (fun e =>
                  { e with next_out_arc := first_out_arc, next_in_arc := first_in_arc }))))
      | _, _ => none

/-- Continuation of `sc_storage_arc_new` after the out-head lock: lock the
in-head when present, then allocate and link. -/
def arcContinue (ctx : Nat) (el : ScElement) (beg end_ first_out_arc first_in_arc : ScAddr)
    (fOut : Bool) (s : ScStorage) : Option (ScAddr × ScStorage) :=
  if first_in_arc.isEmpty then
    arcLink ctx el beg end_ first_out_arc first_in_arc fOut false s
  else
    match sc_storage_element_lock_try s first_in_arc s_max_storage_lock_attempts with
    | (r4, none, s4) =>
      if r4 = ScResult.ok then none
      else
        some (ScAddr.empty,
          (sc_storage_element_unlock
            ((sc_storage_element_unlock (unlockIf fOut first_out_arc s4) beg).2) end_).2)
    | (_, some _, s4) =>
      arcLink ctx el beg end_ first_out_arc first_in_arc fOut true s4

/-- `sc_storage_arc_new`: assert the type carries no node-class bit, default
the class to `sc_type_arc_common` when no arc-class bit is set, lock the two
endpoints and the current heads of their arc lists, allocate the new arc
slot, emit the add-arc events, link the arc at the head of both intrusive
lists and release every lock.  One pass of the C retry loop suffices
sequentially; a failed endpoint lock returns the empty address as the C
`unlock` block does, and a `g_assert` failure (including capacity exhaustion
at `g_assert(tmp_el != 0)`) is `none`. -/
def sc_storage_arc_new (ctx type : Nat) (beg end_ : ScAddr) (s : ScStorage) :
    Option (ScAddr × ScStorage) :=
  if sc_type_node &&& type ≠ 0 then none
  else
    match sc_storage_element_lock_try s beg s_max_storage_lock_attempts with
    | (r1, none, s1) => if r1 = ScResult.ok then none else some (ScAddr.empty, s1)
    | (_, some begEl, s1) =>
      match sc_storage_element_lock_try s1 end_ s_max_storage_lock_attempts with
      | (r2, none, s2) =>
        if r2 = ScResult.ok then none
        else some (ScAddr.empty, (sc_storage_element_unlock s2 beg).2)
      | (_, some endEl, s2) =>
        if begEl.first_out_arc.isEmpty then
          arcContinue ctx
            { scElementZero with
              type := if type &&& sc_type_arc_mask ≠ 0 then type else sc_type_arc_common ||| type,
              begin := beg, end_ := end_ }
            beg end_ begEl.first_out_arc endEl.first_in_arc false s2
        else
          match sc_storage_element_lock_try s2 begEl.first_out_arc s_max_storage_lock_attempts with
          | (r3, none, s3) =>
            if r3 = ScResult.ok then none
            else
              some (ScAddr.empty,
                (sc_storage_element_unlock ((sc_storage_element_unlock s3 beg).2) end_).2)
          | (_, some _, s3) =>
            arcContinue ctx
              { scElementZero with
                type := if type &&& sc_type_arc_mask ≠ 0 then type else sc_type_arc_common ||| type,
                begin := beg, end_ := end_ }
              beg end_ begEl.first_out_arc endEl.first_in_arc true s3

/-- `sc_storage_get_element_type`: lock, read the raw type flags, unlock.
The result is the unlock's result together with the type read; the slot's
emptiness is never inspected. -/
def sc_storage_get_element_type (s : ScStorage) (addr : ScAddr) :
    ScResult × Option Nat × ScStorage :=
  match sc_storage_element_lock s addr with
  | (_, none, s1) => (ScResult.error, none, s1)
  | (_, some el, s1) =>
    let u := sc_storage_element_unlock s1 addr
    (u.1, some el.type, u.2)

/-- `sc_storage_change_element_subtype`: reject a type carrying class bits
with invalid-params; otherwise lock, replace the non-class bits of the
slot's type keeping its class bits, and unlock. -/
def sc_storage_change_element_subtype (s : ScStorage) (addr : ScAddr) (type : Nat) :
    ScResult × ScStorage :=
  if type &&& sc_type_element_mask ≠ 0 then (ScResult.errorInvalidParams, s)
  else
    match sc_storage_element_lock s addr with
    | (_, none, s1) => (ScResult.error, s1)
    | (_, some _, s1) =>
      let s2 := s1.setEl addr (fun e =>
        { e with type := (e.type &&& sc_type_element_mask) ||| (type &&& sc_type_not_element_mask) })
      sc_storage_element_unlock s2 addr

/-- `sc_storage_get_arc_begin`: lock, check the arc-class bits, read the
begin endpoint. -/
def sc_storage_get_arc_begin (s : ScStorage) (addr : ScAddr) :
    ScResult × Option ScAddr × ScStorage :=
  match sc_storage_element_lock s addr with
  | (_, none, s1) => (ScResult.error, none, s1)
  | (_, some el, s1) =>
    if el.type &&& sc_type_arc_mask ≠ 0 then
      (ScResult.ok, some el.begin, (sc_storage_element_unlock s1 addr).2)
    else
      (ScResult.errorInvalidType, none, (sc_storage_element_unlock s1 addr).2)

/-- `sc_storage_get_arc_end`: symmetric to `sc_storage_get_arc_begin`. -/
def sc_storage_get_arc_end (s : ScStorage) (addr : ScAddr) :
    ScResult × Option ScAddr × ScStorage :=
  match sc_storage_element_lock s addr with
  | (_, none, s1) => (ScResult.error, none, s1)
  | (_, some el, s1) =>
    if el.type &&& sc_type_arc_mask ≠ 0 then
      (ScResult.ok, some el.end_, (sc_storage_element_unlock s1 addr).2)
    else
      (ScResult.errorInvalidType, none, (sc_storage_element_unlock s1 addr).2)

/-- Lock an address and register it in the lock table when it is not there
yet, as `sc_storage_element_free` does for arc endpoints and list
neighbours; a failing lock is a failing `g_assert`. -/
def lockInTable (lockL : List ScAddr) (a : ScAddr) (s : ScStorage) :
    Option (List ScAddr × ScStorage) :=
  if a ∈ lockL then some (lockL, s)
  else
    match sc_storage_element_lock s a with
    | (_, none, _) => none
    | (_, some _, s1) => some (lockL ++ [a], s1)

/-- As `lockInTable` but skipping the empty address, for the
`SC_ADDR_IS_NOT_EMPTY` guards on an arc's four list neighbours. -/
def lockIfPresent (lockL : List ScAddr) (a : ScAddr) (s : ScStorage) :
    Option (List ScAddr × ScStorage) :=
  if a.isEmpty then some (lockL, s) else lockInTable lockL a s

/-- One incident-arc chain walk of `sc_storage_element_free` (lines
385–424): follow `next_out_arc` (`dirOut = true`) or `next_in_arc` from the
given address, locking each arc not yet in the removal table and appending
it to the work queue and both tables.  Fuel guards against malformed cyclic
chains, on which the C loop would not terminate. -/
def chainWalk (dirOut : Bool) :
    Nat → ScAddr → List ScAddr → List ScAddr → List ScAddr → ScStorage →
      Option (List ScAddr × List ScAddr × List ScAddr × ScStorage)
  | 0, _, _, _, _, _ => none
  | fuel + 1, cur, queue, removeL, lockL, s =>
    if cur.isEmpty then some (queue, removeL, lockL, s)
    else if cur ∈ removeL then
      match s.getEl cur with
      | none => none
      | some e =>
        chainWalk dirOut fuel (if dirOut then e.next_out_arc else e.next_in_arc)
          queue removeL lockL s
    else
      match sc_storage_element_lock s cur with
      | (_, none, _) => none
      | (_, some e, s1) =>
        chainWalk dirOut fuel (if dirOut then e.next_out_arc else e.next_in_arc)
          (queue ++ [cur]) (removeL ++ [cur])
          (if cur ∈ lockL then lockL else lockL ++ [cur]) s1

/-- The arc-specific part of a traversal step of `sc_storage_element_free`
(lines 309–383): emit the remove-arc events, lock the arc's endpoints and
overwrite their list heads with the arc's successors — unconditionally, as
the source does — then lock the arc's four list neighbours. -/
def freePopArcPart (a : ScAddr) (el : ScElement) (lockL : List ScAddr) (s : ScStorage) :
    Option (List ScAddr × ScStorage) :=
  let s0 := (s.emitEvent (ScEvent.emitted el.begin ScEventType.removeOutputArc a)).emitEvent
      (ScEvent.emitted el.end_ ScEventType.removeInputArc a)
  match lockInTable lockL el.begin s0 with
  | none => none
  | some (lockL1, s1) =>
    let s2 := s1.setEl el.begin (fun e => { e with first_out_arc := el.next_out_arc })
    match lockInTable lockL1 el.end_ s2 with
    | none => none
    | some (lockL2, s3) =>
      let s4 := s3.setEl el.end_ (fun e => { e with first_in_arc := el.next_in_arc })
      match lockIfPresent lockL2 el.prev_out_arc s4 with
      | none => none
      | some (lockL3, s5) =>
        match lockIfPresent lockL3 el.prev_in_arc s5 with
        | none => none
        | some (lockL4, s6) =>
          match lockIfPresent lockL4 el.next_out_arc s6 with
          | none => none
          | some (lockL5, s7) =>
            match lockIfPresent lockL5 el.next_in_arc s7 with
            | none => none
            | some (lockL6, s8) => some (lockL6, s8)

/-- One pop of the traversal work queue of `sc_storage_element_free` (lines
283–428): register the popped address (already registered for every address
the sequential code enqueues), notify the per-element deletion hook, run the
arc part when the element is an arc, then walk its two incident-arc chains
enqueueing newly discovered arcs. -/
def freePopStep (chFuel : Nat) (a : ScAddr) (queue removeL lockL : List ScAddr)
    (s : ScStorage) : Option (List ScAddr × List ScAddr × List ScAddr × ScStorage) :=
  let reg : Option (List ScAddr × List ScAddr × ScStorage) :=
    if a ∈ lockL then some (removeL, lockL, s)
    else
      match sc_storage_element_lock s a with
      | (_, none, _) => none
      | (_, some el, s1) =>
        if el.type = 0 then none
        else some ((if a ∈ removeL then removeL else removeL ++ [a]), lockL ++ [a], s1)
  match reg with
  | none => none
  | some (removeL1, lockL1, s1) =>
    let s2 := s1.emitEvent (ScEvent.notifyElementDeleted a)
    match s2.getEl a with
    | none => none
    | some el =>
      let arcRes : Option (List ScAddr × ScStorage) :=
        if el.type &&& sc_type_arc_mask ≠ 0 then freePopArcPart a el lockL1 s2
        else some (lockL1, s2)
      match arcRes with
      | none => none
      | some (lockL2, s3) =>
        match s3.getEl a with
        | none => none
        | some elNow =>
          match chainWalk true chFuel elNow.first_out_arc queue removeL1 lockL2 s3 with
          | none => none
          | some (queue1, removeL2, lockL3, s4) =>
            chainWalk false chFuel elNow.first_in_arc queue1 removeL2 lockL3 s4

/-- The whole traversal loop of `sc_storage_element_free`: pop addresses in
FIFO order until the work queue empties, producing the removal table, the
lock table (both in insertion order) and the traversed state. -/
def freeCollect (chFuel : Nat) :
    Nat → List ScAddr → List ScAddr → List ScAddr → ScStorage →
      Option (List ScAddr × List ScAddr × ScStorage)
  | 0, _, _, _, _ => none
  | fuel + 1, queue, removeL, lockL, s =>
    match queue with
    | [] => some (removeL, lockL, s)
    | a :: rest =>
      match freePopStep chFuel a rest removeL lockL s with
      | none => none
      | some (queue1, removeL1, lockL1, s1) => freeCollect chFuel fuel queue1 removeL1 lockL1 s1

/-- One erase-phase step of `sc_storage_element_free` (lines 434–514).  For
an arc: splice it out of the output list (its neighbours must be in the lock
table — `g_assert` otherwise), conditionally repair the begin element's
`first_out_arc` head, then splice it out of the input list; the input head
test replicates the source verbatim: it compares against the BEGIN element's
`first_in_arc` but assigns the END element's (line 506).  Finally zero the
slot's type, release its lock and push its segment onto the empty-slot
cache. -/
def freeEraseStep (ctx : Nat) (lockL : List ScAddr) (a : ScAddr) (s : ScStorage) :
    Option ScStorage :=
  match s.getEl a with
  | none => none
  | some el =>
    let spliced : Option ScStorage :=
      if el.type &&& sc_type_arc_mask ≠ 0 then
        let prev_arc := el.prev_out_arc
        let next_arc := el.next_out_arc
        let so1 : Option ScStorage :=
          if prev_arc.isEmpty then some s
          else if prev_arc ∈ lockL then
            some (s.setEl prev_arc (fun e => { e with next_out_arc := next_arc }))
          else none
        match so1 with
        | none => none
        | some sa =>
          let so2 : Option ScStorage :=
            if next_arc.isEmpty then some sa
            else if next_arc ∈ lockL then
              some (sa.setEl next_arc (fun e => { e with prev_out_arc := prev_arc }))
            else none
          match so2 with
          | none => none
          | some sb =>
            let bReg : Option (Bool × ScStorage) :=
              if el.begin ∈ lockL then some (false, sb)
              else
                match sc_storage_element_lock sb el.begin with
                | (_, none, _) => none
                | (_, some _, sb1) => some (true, sb1)
            match bReg with
            | none => none
            | some (needUnlockB, sc0) =>
              match sc0.getEl el.begin with
              | none => none
              | some bNow =>
                let sc1 := if a = bNow.first_out_arc then
                    sc0.setEl el.begin (fun e => { e with first_out_arc := next_arc })
                  else sc0
                let sc2 := if needUnlockB then (sc_storage_element_unlock sc1 el.begin).2 else sc1
                let prevI := el.prev_in_arc
                let nextI := el.next_in_arc
                let si1 : Option ScStorage :=
                  if prevI.isEmpty then some sc2
                  else if prevI ∈ lockL then
                    some (sc2.setEl prevI (fun e => { e with next_in_arc := nextI }))
                  else none
                match si1 with
                | none => none
                | some sd =>
                  let si2 : Option ScStorage :=
                    if nextI.isEmpty then some sd
                    else if nextI ∈ lockL then
                      some (sd.setEl nextI (fun e => { e with prev_in_arc := prevI }))
                    else none
                  match si2 with
                  | none => none
                  | some se =>
                    let eReg : Option (Bool × ScStorage) :=
                      if el.end_ ∈ lockL then some (false, se)
                      else
                        match sc_storage_element_lock se el.end_ with
                        | (_, none, _) => none
                        | (_, some _, se1) => some (true, se1)
                    match eReg with
                    | none => none
                    | some (needUnlockE, sf) =>
                      match sf.getEl el.begin with
                      | none => none
                      | some bNow2 =>
                        let sg := if a = bNow2.first_in_arc then
                            sf.setEl el.end_ (fun e => { e with first_in_arc := nextI })
                          else sf
                        let sh := if needUnlockE then (sc_storage_element_unlock sg el.end_).2 else sg
                        some sh
      else some s
    match spliced with
    | none => none
    | some sz =>
      let sz1 := (sz.setEl a (fun e => { e with type := 0 })).lockDel a
      some (_sc_segment_cache_append ctx a.seg sz1)

/-- The erase phase of `sc_storage_element_free`: erase every collected
element, in the removal table's insertion order. -/
def freeEraseLoop (ctx : Nat) (lockL : List ScAddr) :
    List ScAddr → ScStorage → Option ScStorage
  | [], s => some s
  | a :: rest, s =>
    match freeEraseStep ctx lockL a s with
    | none => none
    | some s1 => freeEraseLoop ctx lockL rest s1

/-- The final unlock loop of `sc_storage_element_free`: release every lock
recorded in the lock table. -/
def freeUnlockAll (lockL : List ScAddr) (s : ScStorage) : ScStorage :=
  lockL.foldl (fun t a => (sc_storage_element_unlock t a).2) s

/-- `sc_storage_element_free`: lock the root address and fail on an empty
(or unresolvable) element — without releasing the acquired lock, as the
source does; otherwise collect and lock the deletion closure, erase it,
release all table locks and finally emit one `SC_EVENT_REMOVE_ELEMENT` event
whose address is the C code's reused `addr` variable: the last key of the
lock-table iteration. -/
def sc_storage_element_free (ctx : Nat) (addr : ScAddr) (s : ScStorage) :
    Option (ScResult × ScStorage) :=
  match sc_storage_element_lock s addr with
  | (_, none, s1) => some (ScResult.error, s1)
  | (_, some el, s1) =>
    if el.type = 0 then some (ScResult.error, s1)
    else
      let chFuel := s1.segments.length * scSegmentElements + 2
      match freeCollect chFuel chFuel [addr] [addr] [addr] s1 with
      | none => none
      | some (removeL, lockL, s2) =>
        match freeEraseLoop ctx lockL removeL s2 with
        | none => none
        | some s3 =>
          let s4 := freeUnlockAll lockL s3
          let lastA := lockL.getLastD addr
          some (ScResult.ok, s4.emitEvent (ScEvent.emitted lastA ScEventType.removeElement lastA))

/-- The `next_out_arc` successor function used when traversing an output
arc list (the empty address when the slot does not resolve). -/
def nextOutF (s : ScStorage) (a : ScAddr) : ScAddr :=
  match s.getEl a with
  | some e => e.next_out_arc
  | none => ScAddr.empty

/-- The `next_in_arc` successor function of input arc lists. -/
def nextInF (s : ScStorage) (a : ScAddr) : ScAddr :=
  match s.getEl a with
  | some e => e.next_in_arc
  | none => ScAddr.empty

/-- The list of addresses visited when starting at `a` and repeatedly
following `next_out_arc`, stopping at the empty address; fuel bounds the
walk. -/
def followOut (s : ScStorage) : Nat → ScAddr → List ScAddr
  | 0, _ => []
  | n + 1, a => if a.isEmpty then [] else a :: followOut s n (nextOutF s a)

/-- As `followOut` with `next_in_arc`. -/
def followIn (s : ScStorage) : Nat → ScAddr → List ScAddr
  | 0, _ => []
  | n + 1, a => if a.isEmpty then [] else a :: followIn s n (nextInF s a)

/-- The arcs incident to an element as worded by the deletion claim: the
whole `first_out`/`next_out` chain together with the whole
`first_in`/`next_in` chain. -/
def incidentArcs (s : ScStorage) (n : Nat) (a : ScAddr) : List ScAddr :=
  match s.getEl a with
  | some e => followOut s n e.first_out_arc ++ followIn s n e.first_in_arc
  | none => []

/-- The transitive deletion closure exactly as the specification words it:
the start address plus all arcs reachable by following the
`first_out`/`next_out` and `first_in`/`next_in` chains from it, and
recursively from each such arc — computed on the state passed in (the
pre-deletion state). -/
def specTransitiveClosure (s : ScStorage) : Nat → List ScAddr → List ScAddr → List ScAddr
  | 0, acc, _ => acc
  | _ + 1, acc, [] => acc
  | n + 1, acc, f :: rest =>
    let fresh := (incidentArcs s (n + 1) f).filter (fun x => decide (x ∉ acc))
    specTransitiveClosure s n (acc ++ fresh) (rest ++ fresh)

/-- Recogniser for `SC_EVENT_REMOVE_ELEMENT` entries of the event trace. -/
def isRemoveElementEv : ScEvent → Bool
  | ScEvent.emitted _ ScEventType.removeElement _ => true
  | _ => false

/-- An initialised empty store (`sc_storage_initialize` with `clear`) whose
`max_loaded_segments` configuration is 16. -/
def storeEmpty : ScStorage :=
  { segments := [], maxLoadedSegments := 16,
    cache := List.replicate SC_SEGMENT_CACHE_SIZE none, cacheCount := 0,
    locks := [], events := [] }

/-- Scenario "transitive free": build `a —e1→ b —e2→ c`.  Step 1: node a. -/
def chainStep1 : ScAddr × ScStorage := (sc_storage_node_new 0 0 storeEmpty).getD (ScAddr.empty, storeEmpty)

/-- Address of node `a` of the chain scenario. -/
def chainA : ScAddr := chainStep1.1

/-- Step 2: node b. -/
def chainStep2 : ScAddr × ScStorage := (sc_storage_node_new 0 0 chainStep1.2).getD (ScAddr.empty, chainStep1.2)

/-- Address of node `b`. -/
def chainB : ScAddr := chainStep2.1

/-- Step 3: node c. -/
def chainStep3 : ScAddr × ScStorage := (sc_storage_node_new 0 0 chainStep2.2).getD (ScAddr.empty, chainStep2.2)

/-- Address of node `c`. -/
def chainC : ScAddr := chainStep3.1

/-- Step 4: arc `e1 : a → b` (default common class). -/
def chainStep4 : ScAddr × ScStorage := (sc_storage_arc_new 0 0 chainA chainB chainStep3.2).getD (ScAddr.empty, chainStep3.2)

/-- Address of arc `e1`. -/
def chainE1 : ScAddr := chainStep4.1

/-- Step 5: arc `e2 : b → c`. -/
def chainStep5 : ScAddr × ScStorage := (sc_storage_arc_new 0 0 chainB chainC chainStep4.2).getD (ScAddr.empty, chainStep4.2)

/-- Address of arc `e2`. -/
def chainE2 : ScAddr := chainStep5.1

/-- The store holding `a —e1→ b —e2→ c`. -/
def chainState : ScStorage := chainStep5.2

/-- The store after `free(b)` on the chain scenario. -/
def chainAfter : ScStorage :=
  ((sc_storage_element_free 0 chainB chainState).getD (ScResult.error, chainState)).2

/-- Scenario "second arc prepends": nodes a, b and two parallel arcs
`e, e2 : a → b`.  Step 1: node a. -/
def twoArcStep1 : ScAddr × ScStorage := (sc_storage_node_new 0 0 storeEmpty).getD (ScAddr.empty, storeEmpty)

/-- Address of node a of the parallel-arc scenario. -/
def twoArcA : ScAddr := twoArcStep1.1

/-- Step 2: node b. -/
def twoArcStep2 : ScAddr × ScStorage := (sc_storage_node_new 0 0 twoArcStep1.2).getD (ScAddr.empty, twoArcStep1.2)

/-- Address of node b. -/
def twoArcB : ScAddr := twoArcStep2.1

/-- Step 3: first arc `e : a → b`. -/
def twoArcStep3 : ScAddr × ScStorage := (sc_storage_arc_new 0 0 twoArcA twoArcB twoArcStep2.2).getD (ScAddr.empty, twoArcStep2.2)

/-- Address of the first arc `e`. -/
def twoArcE : ScAddr := twoArcStep3.1

/-- The store holding one arc `a → b`, input of the witnessed second
`create_arc`. -/
def twoArcState1 : ScStorage := twoArcStep3.2

/-- Step 4: second arc `e2 : a → b`. -/
def twoArcStep4 : ScAddr × ScStorage := (sc_storage_arc_new 0 0 twoArcA twoArcB twoArcState1).getD (ScAddr.empty, twoArcState1)

/-- Address of the second arc `e2`. -/
def twoArcE2 : ScAddr := twoArcStep4.1

/-- The store holding both parallel arcs. -/
def twoArcState2 : ScStorage := twoArcStep4.2

/-- Scenario for the input-list head asymmetry: nodes A, B, Y and arcs
`f2 : A → Y` (created first) then `f1 : B → Y`, so Y's input list is
`[f1, f2]` with head `f1`.  Step 1: node A. -/
def dblInStep1 : ScAddr × ScStorage := (sc_storage_node_new 0 0 storeEmpty).getD (ScAddr.empty, storeEmpty)

/-- Address of node A. -/
def dblInA : ScAddr := dblInStep1.1

/-- Step 2: node B. -/
def dblInStep2 : ScAddr × ScStorage := (sc_storage_node_new 0 0 dblInStep1.2).getD (ScAddr.empty, dblInStep1.2)

/-- Address of node B. -/
def dblInB : ScAddr := dblInStep2.1

/-- Step 3: node Y. -/
def dblInStep3 : ScAddr × ScStorage := (sc_storage_node_new 0 0 dblInStep2.2).getD (ScAddr.empty, dblInStep2.2)

/-- Address of node Y. -/
def dblInY : ScAddr := dblInStep3.1

/-- Step 4: arc `f2 : A → Y`. -/
def dblInStep4 : ScAddr × ScStorage := (sc_storage_arc_new 0 0 dblInA dblInY dblInStep3.2).getD (ScAddr.empty, dblInStep3.2)

/-- Address of arc f2 (the non-head entry of Y's input list). -/
def dblInF2 : ScAddr := dblInStep4.1

/-- Step 5: arc `f1 : B → Y`. -/
def dblInStep5 : ScAddr × ScStorage := (sc_storage_arc_new 0 0 dblInB dblInY dblInStep4.2).getD (ScAddr.empty, dblInStep4.2)

/-- Address of arc f1 (the head of Y's input list). -/
def dblInF1 : ScAddr := dblInStep5.1

/-- The store holding both incoming arcs of Y. -/
def dblInState : ScStorage := dblInStep5.2

/-- The store after `free(f2)` on the two-incoming-arcs scenario. -/
def dblInAfter : ScStorage :=
  ((sc_storage_element_free 0 dblInF2 dblInState).getD (ScResult.error, dblInState)).2

/-- Scenario with an arc whose begin is itself an arc: nodes X, Y, W, arc
`B : X → Y`, arc `e : B → Y`, arc `g : B → W`; B's output list is then
`[g, e]`.  Step 1: node X. -/
def aoaStep1 : ScAddr × ScStorage := (sc_storage_node_new 0 0 storeEmpty).getD (ScAddr.empty, storeEmpty)

/-- Address of node X. -/
def aoaX : ScAddr := aoaStep1.1

/-- Step 2: node Y. -/
def aoaStep2 : ScAddr × ScStorage := (sc_storage_node_new 0 0 aoaStep1.2).getD (ScAddr.empty, aoaStep1.2)

/-- Address of node Y. -/
def aoaY : ScAddr := aoaStep2.1

/-- Step 3: node W. -/
def aoaStep3 : ScAddr × ScStorage := (sc_storage_node_new 0 0 aoaStep2.2).getD (ScAddr.empty, aoaStep2.2)

/-- Address of node W. -/
def aoaW : ScAddr := aoaStep3.1

/-- Step 4: arc `B : X → Y`. -/
def aoaStep4 : ScAddr × ScStorage := (sc_storage_arc_new 0 0 aoaX aoaY aoaStep3.2).getD (ScAddr.empty, aoaStep3.2)

/-- Address of arc B. -/
def aoaB : ScAddr := aoaStep4.1

/-- Step 5: arc `e : B → Y`. -/
def aoaStep5 : ScAddr × ScStorage := (sc_storage_arc_new 0 0 aoaB aoaY aoaStep4.2).getD (ScAddr.empty, aoaStep4.2)

/-- Address of arc e. -/
def aoaE : ScAddr := aoaStep5.1

/-- Step 6: arc `g : B → W`. -/
def aoaStep6 : ScAddr × ScStorage := (sc_storage_arc_new 0 0 aoaB aoaW aoaStep5.2).getD (ScAddr.empty, aoaStep5.2)

/-- Address of arc g. -/
def aoaG : ScAddr := aoaStep6.1

/-- The store holding the arc-on-arc graph. -/
def aoaState : ScStorage := aoaStep6.2

/-- The store after `free(Y)` on the arc-on-arc graph. -/
def aoaAfter : ScStorage :=
  ((sc_storage_element_free 0 aoaY aoaState).getD (ScResult.error, aoaState)).2

/-- Capacity scenario: a store configured with `max_loaded_segments = 2`. -/
def storeCap2 : ScStorage :=
  { segments := [], maxLoadedSegments := 2,
    cache := List.replicate SC_SEGMENT_CACHE_SIZE none, cacheCount := 0,
    locks := [], events := [] }

/-- Capacity scenario step 1: node a. -/
def capStep1 : ScAddr × ScStorage := (sc_storage_node_new 0 0 storeCap2).getD (ScAddr.empty, storeCap2)

/-- Address of node a of the capacity scenario. -/
def capA : ScAddr := capStep1.1

/-- Step 2: node b. -/
def capStep2 : ScAddr × ScStorage := (sc_storage_node_new 0 0 capStep1.2).getD (ScAddr.empty, capStep1.2)

/-- Address of node b. -/
def capB : ScAddr := capStep2.1

/-- Step 3: node c (fills segment 0). -/
def capStep3 : ScAddr × ScStorage := (sc_storage_node_new 0 0 capStep2.2).getD (ScAddr.empty, capStep2.2)

/-- Step 4: node d — forces creation of segment 1, bringing `segments_num`
up to the configured maximum. -/
def capStep4 : ScAddr × ScStorage := (sc_storage_node_new 0 0 capStep3.2).getD (ScAddr.empty, capStep3.2)

/-- The full store: `segments_num = max_loaded_segments = 2`. -/
def capState : ScStorage := capStep4.2

/-- State for the empty-element `free` error path: a store with one node at
(0,1); slot (0,2) is empty. -/
def c5State : ScStorage := chainStep1.2

/-- The empty slot address `free` is called on in the lock-leak scenario. -/
def c5Addr : ScAddr := ⟨0, 2⟩

/-- The store returned by `free` on the empty slot. -/
def c5After : ScStorage :=
  ((sc_storage_element_free 0 c5Addr c5State).getD (ScResult.ok, c5State)).2

/-- A link created in the empty store (for the link-creation witnesses). -/
def linkStep : ScAddr × ScStorage :=
  (sc_storage_link_new 0 storeEmpty).getD (ScAddr.empty, storeEmpty)

/-- The element sitting at node a of the chain scenario (for the
change-subtype witness). -/
def c7El : ScElement := (chainState.getEl chainA).getD scElementZero

/-- The element at node a before the witnessed second `create_arc`. -/
def twoArcBEl : ScElement := (twoArcState1.getEl twoArcA).getD scElementZero

/-- The element at node b before the witnessed second `create_arc`. -/
def twoArcEEl : ScElement := (twoArcState1.getEl twoArcB).getD scElementZero

/-- The element at node a before arc e1 of the chain scenario is created. -/
def c6ArcBEl : ScElement := (chainStep3.2.getEl chainA).getD scElementZero

/-- The element at node b before arc e1 of the chain scenario is created. -/
def c6ArcEEl : ScElement := (chainStep3.2.getEl chainB).getD scElementZero

theorem getq_lt {α : Type} : ∀ (xs : List α) (i : Nat) (x : α), xs[i]? = some x → i < xs.length := by
  intro xs
  induction xs with
  | nil => intro i x h; simp at h
  | cons y t ih =>
    intro i x h
    cases i with
    | zero => simp
    | succ n =>
      simp only [List.getElem?_cons_succ] at h
      exact Nat.succ_lt_succ (ih n x h)

theorem listUpd_length {α : Type} : ∀ (xs : List α) (i : Nat) (f : α → α),
    (listUpd xs i f).length = xs.length := by
  intro xs
  induction xs with
  | nil => intro i f; rfl
  | cons y t ih =>
    intro i f
    cases i with
    | zero => rfl
    | succ n => simpa [listUpd] using ih n f

theorem listUpd_getq_self {α : Type} : ∀ (xs : List α) (i : Nat) (f : α → α) (x : α),
    xs[i]? = some x → (listUpd xs i f)[i]? = some (f x) := by
  intro xs
  induction xs with
  | nil => intro i f x h; simp at h
  | cons y t ih =>
    intro i f x h
    cases i with
    | zero =>
      simp only [List.getElem?_cons_zero, Option.some.injEq] at h
      simp [listUpd, h]
    | succ n =>
      simp only [List.getElem?_cons_succ] at h
      simpa [listUpd] using ih n f x h

theorem listUpd_getq_ne {α : Type} : ∀ (xs : List α) (i j : Nat) (f : α → α),
    j ≠ i → (listUpd xs i f)[j]? = xs[j]? := by
  intro xs
  induction xs with
  | nil => intro i j f _; rfl
  | cons y t ih =>
    intro i j f hne
    cases i with
    | zero =>
      cases j with
      | zero => exact absurd rfl hne
      | succ m => simp [listUpd]
    | succ n =>
      cases j with
      | zero => simp [listUpd]
      | succ m =>
        simp only [listUpd, List.getElem?_cons_succ]
        exact ih n m f (fun h => hne (by rw [h]))

theorem listUpd_getq_none {α : Type} : ∀ (xs : List α) (i : Nat) (f : α → α),
    xs[i]? = none → (listUpd xs i f)[i]? = none := by
  intro xs
  induction xs with
  | nil => intro i f _; simp [listUpd]
  | cons y t ih =>
    intro i f h
    cases i with
    | zero => simp at h
    | succ n =>
      simp only [List.getElem?_cons_succ] at h
      simpa [listUpd] using ih n f h

theorem getEl_eq (s : ScStorage) (a : ScAddr) :
    s.getEl a = (s.segments[a.seg]?).bind (fun seg => seg.elements[a.offset]?) := by
  unfold ScStorage.getEl
  cases s.segments[a.seg]? <;> rfl

@[simp] theorem setEl_segments (s : ScStorage) (a : ScAddr) (f : ScElement → ScElement) :
    (ScStorage.setEl s a f).segments =
      listUpd s.segments a.seg (fun seg => { seg with elements := listUpd seg.elements a.offset f }) := rfl

@[simp] theorem setEl_locks (s : ScStorage) (a : ScAddr) (f : ScElement → ScElement) :
    (ScStorage.setEl s a f).locks = s.locks := rfl

@[simp] theorem setEl_events (s : ScStorage) (a : ScAddr) (f : ScElement → ScElement) :
    (ScStorage.setEl s a f).events = s.events := rfl

@[simp] theorem setEl_max (s : ScStorage) (a : ScAddr) (f : ScElement → ScElement) :
    (ScStorage.setEl s a f).maxLoadedSegments = s.maxLoadedSegments := rfl

@[simp] theorem lockAdd_segments (s : ScStorage) (a : ScAddr) :
    (ScStorage.lockAdd s a).segments = s.segments := rfl

@[simp] theorem lockDel_segments (s : ScStorage) (a : ScAddr) :
    (ScStorage.lockDel s a).segments = s.segments := rfl

@[simp] theorem emitEvent_segments (s : ScStorage) (e : ScEvent) :
    (ScStorage.emitEvent s e).segments = s.segments := rfl

theorem getEl_congr {s₁ s₂ : ScStorage} (h : s₁.segments = s₂.segments) (a : ScAddr) :
    s₁.getEl a = s₂.getEl a := by
  rw [getEl_eq, getEl_eq, h]

theorem getEl_setEl_self {s : ScStorage} {a : ScAddr} {f : ScElement → ScElement} {x : ScElement}
    (h : s.getEl a = some x) : (s.setEl a f).getEl a = some (f x) := by
  rw [getEl_eq] at h
  rw [getEl_eq, setEl_segments]
  cases hseg : s.segments[a.seg]? with
  | none => rw [hseg] at h; simp at h
  | some seg =>
    rw [hseg] at h
    simp only [Option.some_bind] at h
    rw [listUpd_getq_self s.segments a.seg _ seg hseg]
    simp only [Option.some_bind]
    exact listUpd_getq_self seg.elements a.offset f x h

theorem getEl_setEl_none {s : ScStorage} {a : ScAddr} {f : ScElement → ScElement}
    (h : s.getEl a = none) : (s.setEl a f).getEl a = none := by
  rw [getEl_eq] at h
  rw [getEl_eq, setEl_segments]
  cases hseg : s.segments[a.seg]? with
  | none => rw [listUpd_getq_none s.segments a.seg _ hseg]; rfl
  | some seg =>
    rw [hseg] at h
    simp only [Option.some_bind] at h
    rw [listUpd_getq_self s.segments a.seg _ seg hseg]
    simp only [Option.some_bind]
    exact listUpd_getq_none seg.elements a.offset f h

theorem getEl_setEl_ne {s : ScStorage} {a b : ScAddr} {f : ScElement → ScElement}
    (h : b ≠ a) : (s.setEl a f).getEl b = s.getEl b := by
  rw [getEl_eq, getEl_eq, setEl_segments]
  by_cases hseg : b.seg = a.seg
  · have hoff : b.offset ≠ a.offset := by
      intro hoff
      exact h (by cases a; cases b; simp_all)
    rw [hseg]
    cases hs : s.segments[a.seg]? with
    | none => rw [listUpd_getq_none s.segments a.seg _ hs]
    | some seg =>
      rw [listUpd_getq_self s.segments a.seg _ seg hs]
      simp only [Option.some_bind]
      exact listUpd_getq_ne seg.elements a.offset b.offset f hoff
  · rw [listUpd_getq_ne s.segments a.seg b.seg _ hseg]

theorem removeFirst_cons_self (a : ScAddr) (l : List ScAddr) : removeFirst a (a :: l) = l := by
  simp [removeFirst]

theorem getEl_some_elim {s : ScStorage} {a : ScAddr} {el : ScElement} (h : s.getEl a = some el) :
    ∃ seg, s.segments[a.seg]? = some seg ∧ seg.elements[a.offset]? = some el := by
  rw [getEl_eq] at h
  cases hseg : s.segments[a.seg]? with
  | none => rw [hseg] at h; simp at h
  | some seg =>
    rw [hseg] at h
    simp only [Option.some_bind] at h
    exact ⟨seg, rfl, h⟩

theorem lock_eval {s : ScStorage} {a : ScAddr} {el : ScElement}
    (h : s.getEl a = some el) (hseg : a.seg < scAddrSegMax) :
    sc_storage_element_lock s a = (ScResult.ok, some el, s.lockAdd a) := by
  obtain ⟨seg, h1, h2⟩ := getEl_some_elim h
  unfold sc_storage_element_lock
  rw [if_neg (Nat.not_le.mpr hseg)]
  simp only [h1, h2]

theorem unlock_eval {s : ScStorage} {a : ScAddr} {seg : ScSegment}
    (h : s.segments[a.seg]? = some seg) (hseg : a.seg < scAddrSegMax) :
    sc_storage_element_unlock s a = (ScResult.ok, s.lockDel a) := by
  unfold sc_storage_element_unlock
  rw [if_neg (Nat.not_le.mpr hseg)]
  simp only [h]

theorem unlock_snd_segments (s : ScStorage) (a : ScAddr) :
    ((sc_storage_element_unlock s a).2).segments = s.segments := by
  unfold sc_storage_element_unlock
  split
  · rfl
  · split <;> rfl

theorem cacheAppend_segments (ctx k : Nat) (s : ScStorage) :
    (_sc_segment_cache_append ctx k s).segments = s.segments := by
  unfold _sc_segment_cache_append
  split <;> rfl

theorem cacheAppend_locks (ctx k : Nat) (s : ScStorage) :
    (_sc_segment_cache_append ctx k s).locks = s.locks := by
  unfold _sc_segment_cache_append
  split <;> rfl

theorem cacheAppend_events (ctx k : Nat) (s : ScStorage) :
    (_sc_segment_cache_append ctx k s).events = s.events := by
  unfold _sc_segment_cache_append
  split <;> rfl

theorem cacheAppend_max (ctx k : Nat) (s : ScStorage) :
    (_sc_segment_cache_append ctx k s).maxLoadedSegments = s.maxLoadedSegments := by
  unfold _sc_segment_cache_append
  split <;> rfl

theorem cacheRemove_segments (ctx k : Nat) (s : ScStorage) :
    (_sc_segment_cache_remove ctx k s).segments = s.segments := by
  unfold _sc_segment_cache_remove
  split <;> rfl

theorem cacheRemove_locks (ctx k : Nat) (s : ScStorage) :
    (_sc_segment_cache_remove ctx k s).locks = s.locks := by
  unfold _sc_segment_cache_remove
  split <;> rfl

theorem cacheRemove_events (ctx k : Nat) (s : ScStorage) :
    (_sc_segment_cache_remove ctx k s).events = s.events := by
  unfold _sc_segment_cache_remove
  split <;> rfl

theorem cacheRemove_max (ctx k : Nat) (s : ScStorage) :
    (_sc_segment_cache_remove ctx k s).maxLoadedSegments = s.maxLoadedSegments := by
  unfold _sc_segment_cache_remove
  split <;> rfl

theorem cacheUpdateList_pres (ctx : Nat) :
    ∀ (segs : List ScSegment) (s : ScStorage),
      (cacheUpdateList ctx segs s).segments = s.segments
      ∧ (cacheUpdateList ctx segs s).locks = s.locks
      ∧ (cacheUpdateList ctx segs s).events = s.events
      ∧ (cacheUpdateList ctx segs s).maxLoadedSegments = s.maxLoadedSegments := by
  intro segs
  induction segs with
  | nil => intro s; exact ⟨rfl, rfl, rfl, rfl⟩
  | cons seg rest ih =>
    intro s
    rw [cacheUpdateList]
    set s1 := if sc_segment_has_empty_slot seg then _sc_segment_cache_append ctx seg.num s else s with hs1
    have hpres : s1.segments = s.segments ∧ s1.locks = s.locks ∧ s1.events = s.events
        ∧ s1.maxLoadedSegments = s.maxLoadedSegments := by
      rw [hs1]
      split
      · exact ⟨cacheAppend_segments .., cacheAppend_locks .., cacheAppend_events .., cacheAppend_max ..⟩
      · exact ⟨rfl, rfl, rfl, rfl⟩
    split
    · exact hpres
    · obtain ⟨ha, hb, hc, hd⟩ := ih s1
      obtain ⟨he, hf, hg, hh⟩ := hpres
      exact ⟨ha.trans he, hb.trans hf, hc.trans hg, hd.trans hh⟩

theorem cacheUpdate_pres (ctx : Nat) (s : ScStorage) :
    (_sc_segment_cache_update ctx s).segments = s.segments
    ∧ (_sc_segment_cache_update ctx s).locks = s.locks
    ∧ (_sc_segment_cache_update ctx s).events = s.events
    ∧ (_sc_segment_cache_update ctx s).maxLoadedSegments = s.maxLoadedSegments :=
  cacheUpdateList_pres ctx s.segments s

theorem cacheGet_spec (ctx : Nat) (s : ScStorage) :
    (_sc_segment_cache_get ctx s).2 = s ∨
      ((_sc_segment_cache_get ctx s).1 = s.segments.length
       ∧ (_sc_segment_cache_get ctx s).2.segments = s.segments ++ [sc_segment_new s.segments.length]
       ∧ (_sc_segment_cache_get ctx s).2.locks = s.locks
       ∧ (_sc_segment_cache_get ctx s).2.events = s.events
       ∧ (_sc_segment_cache_get ctx s).2.maxLoadedSegments = s.maxLoadedSegments) := by
  unfold _sc_segment_cache_get
  obtain ⟨ha, hb, hc, hd⟩ := cacheUpdate_pres ctx s
  split
  · exact Or.inl rfl
  · refine Or.inr ⟨by simp [ha], ?_, ?_, ?_, ?_⟩
    · rw [cacheAppend_segments]
      simp [ha]
    · rw [cacheAppend_locks]
      simpa using hb
    · rw [cacheAppend_events]
      simpa using hc
    · rw [cacheAppend_max]
      simpa using hd

theorem freshSeg_zero : segmentEmptySlot (sc_segment_new 0) = some 1 := by decide

theorem freshSeg_succ (n : Nat) : segmentEmptySlot (sc_segment_new (n + 1)) = some 0 := rfl

theorem freshSeg_isSome (n : Nat) : (segmentEmptySlot (sc_segment_new n)).isSome = true := by
  cases n with
  | zero => rw [freshSeg_zero]; rfl
  | succ m => rw [freshSeg_succ]; rfl

theorem getEl_of_segments_append {s1 s : ScStorage} {seg2 : ScSegment}
    (hs : s1.segments = s.segments ++ [seg2]) {b : ScAddr} {el2 : ScElement}
    (h : s.getEl b = some el2) : s1.getEl b = some el2 := by
  have hlt : b.seg < s.segments.length := by
    obtain ⟨seg, h1, _⟩ := getEl_some_elim h
    exact getq_lt _ _ _ h1
  rw [getEl_eq, hs, List.getElem?_append, if_pos hlt, ← getEl_eq]
  exact h

theorem getEl_append_of_none {s1 s : ScStorage} {k : Nat}
    (hs : s1.segments = s.segments ++ [sc_segment_new k]) {b : ScAddr}
    (h : s.getEl b = none) : s1.getEl b = none ∨ s1.getEl b = some scElementZero := by
  rw [getEl_eq, hs, List.getElem?_append]
  by_cases hlt : b.seg < s.segments.length
  · rw [if_pos hlt, ← getEl_eq]
    exact Or.inl h
  · rw [if_neg hlt]
    by_cases heq : b.seg - s.segments.length = 0
    · rw [heq]
      simp only [List.getElem?_cons_zero, Option.some_bind]
      show ((List.replicate scSegmentElements scElementZero)[b.offset]? = none)
        ∨ ((List.replicate scSegmentElements scElementZero)[b.offset]? = some scElementZero)
      rw [List.getElem?_replicate]
      by_cases hoff : b.offset < scSegmentElements
      · rw [if_pos hoff]; exact Or.inr rfl
      · rw [if_neg hoff]; exact Or.inl rfl
    · have hnone : ([sc_segment_new k] : List ScSegment)[b.seg - s.segments.length]? = none := by
        apply List.getElem?_eq_none
        simp only [List.length_cons, List.length_nil]
        omega
      rw [hnone]
      exact Or.inl rfl

theorem appendLoop_spec :
    ∀ (fuel ctx : Nat) (element : ScElement) (s : ScStorage) (a : ScAddr) (s' : ScStorage),
      appendLoop ctx element fuel s = (some a, s') →
      s'.getEl a = some element
      ∧ a.seg ≤ s.segments.length
      ∧ a.seg < s'.segments.length
      ∧ a.offset < scSegmentElements
      ∧ s'.maxLoadedSegments = s.maxLoadedSegments
      ∧ s'.events = s.events
      ∧ s'.locks = a :: s.locks
      ∧ (∀ b el2, b ≠ a → s.getEl b = some el2 → s'.getEl b = some el2)
      ∧ (∀ b, b ≠ a → s.getEl b = none → (s'.getEl b = none ∨ s'.getEl b = some scElementZero)) := by
  intro fuel
  induction fuel with
  | zero =>
    intro ctx element s a s' h
    simp [appendLoop] at h
  | succ n ih =>
    intro ctx element s a s' h
    rw [appendLoop] at h
    rcases hp : _sc_segment_cache_get ctx s with ⟨k, s1⟩
    have hcg := cacheGet_spec ctx s
    rw [hp] at h hcg
    simp only at h hcg
    cases hseg : s1.segments[k]? with
    | none =>
      simp only [hseg] at h
      simp at h
    | some seg =>
      simp only [hseg] at h
      cases hslot : segmentEmptySlot seg with
      | some off =>
        simp only [hslot] at h
        simp only [Prod.mk.injEq, Option.some.injEq] at h
        obtain ⟨ha, hs'⟩ := h
        subst ha
        have hklt : k < s1.segments.length := getq_lt _ _ _ hseg
        have hoff : off < scSegmentElements ∧ ∃ el0, seg.elements[off]? = some el0 := by
          have hpmem := List.mem_range.mp (List.mem_of_find?_eq_some hslot)
          have hpred := List.find?_some hslot
          refine ⟨hpmem, ?_⟩
          cases hget : seg.elements[off]? with
          | none => rw [hget] at hpred; simp at hpred
          | some el0 => exact ⟨el0, rfl⟩
        obtain ⟨hofflt, el0, hel0⟩ := hoff
        have hget1 : s1.getEl ⟨k, off⟩ = some el0 := by
          rw [getEl_eq]
          show (s1.segments[k]?).bind (fun seg => seg.elements[off]?) = some el0
          rw [hseg, Option.some_bind, hel0]
        have hgetLock : (s1.lockAdd ⟨k, off⟩).getEl ⟨k, off⟩ = some el0 := by
          rw [getEl_congr (lockAdd_segments s1 ⟨k, off⟩)]
          exact hget1
        have hmain : s'.getEl ⟨k, off⟩ = some element := by
          rw [← hs']
          rw [getEl_setEl_self hgetLock]
        have hseglen : s'.segments.length = s1.segments.length := by
          rw [← hs']
          simp only [setEl_segments, lockAdd_segments]
          exact listUpd_length _ _ _
        have hs1s : s1.segments.length ≤ s.segments.length + 1 := by
          rcases hcg with h1 | ⟨_, h2, _, _, _⟩
          · rw [h1]; omega
          · rw [h2]; simp
        have hgetb : ∀ b el2, s.getEl b = some el2 → s1.getEl b = some el2 := by
          intro b el2 hb
          rcases hcg with h1 | ⟨_, h2, _, _, _⟩
          · rw [h1]; exact hb
          · exact getEl_of_segments_append h2 hb
        have hgetbn : ∀ b, s.getEl b = none →
            (s1.getEl b = none ∨ s1.getEl b = some scElementZero) := by
          intro b hb
          rcases hcg with h1 | ⟨_, h2, _, _, _⟩
          · rw [h1]; exact Or.inl hb
          · exact getEl_append_of_none h2 hb
        refine ⟨hmain, ?_, ?_, hofflt, ?_, ?_, ?_, ?_, ?_⟩
        · show k ≤ s.segments.length
          omega
        · show k < s'.segments.length
          omega
        · rw [← hs']
          simp only [setEl_max]
          show s1.maxLoadedSegments = s.maxLoadedSegments
          rcases hcg with h1 | ⟨_, _, _, _, h5⟩
          · rw [h1]
          · exact h5
        · rw [← hs']
          simp only [setEl_events]
          show s1.events = s.events
          rcases hcg with h1 | ⟨_, _, _, h4, _⟩
          · rw [h1]
          · exact h4
        · rw [← hs']
          simp only [setEl_locks]
          show (⟨k, off⟩ : ScAddr) :: s1.locks = (⟨k, off⟩ : ScAddr) :: s.locks
          rcases hcg with h1 | ⟨_, _, h3, _, _⟩
          · rw [h1]
          · rw [h3]
        · intro b el2 hne hb
          rw [← hs', getEl_setEl_ne hne, getEl_congr (lockAdd_segments s1 ⟨k, off⟩)]
          exact hgetb b el2 hb
        · intro b hne hb
          rw [← hs', getEl_setEl_ne hne, getEl_congr (lockAdd_segments s1 ⟨k, off⟩)]
          exact hgetbn b hb
      | none =>
        simp only [hslot] at h
        have hnotnew : s1 = s := by
          rcases hcg with h1 | ⟨hk, h2, _, _, _⟩
          · exact h1
          · exfalso
            have : s1.segments[k]? = some (sc_segment_new s.segments.length) := by
              rw [h2, hk, List.getElem?_concat_length]
            rw [hseg] at this
            injection this with hsegeq
            rw [hsegeq] at hslot
            have := freshSeg_isSome s.segments.length
            rw [hslot] at this
            cases this
        subst hnotnew
        obtain ⟨ih1, ih2, ih3, ih4, ih5, ih6, ih7, ih8, ih9⟩ := ih ctx element _ a s' h
        have hsr := cacheRemove_segments ctx k s1
        have hlr := cacheRemove_locks ctx k s1
        have her := cacheRemove_events ctx k s1
        have hmr := cacheRemove_max ctx k s1
        refine ⟨ih1, by rw [← hsr]; exact ih2, ih3, ih4, by rw [ih5, hmr],
          by rw [ih6, her], by rw [ih7, hlr], ?_, ?_⟩
        · intro b el2 hne hb
          exact ih8 b el2 hne (by rw [getEl_congr hsr]; exact hb)
        · intro b hne hb
          exact ih9 b hne (by rw [getEl_congr hsr]; exact hb)

theorem append_spec {ctx : Nat} {element : ScElement} {s : ScStorage} {a : ScAddr} {s' : ScStorage}
    (h : sc_storage_append_el_into_segments ctx element s = (some a, s')) :
    s'.getEl a = some element
    ∧ a.seg ≤ s.segments.length
    ∧ a.seg < s'.segments.length
    ∧ a.offset < scSegmentElements
    ∧ s'.maxLoadedSegments = s.maxLoadedSegments
    ∧ s'.events = s.events
    ∧ s'.locks = a :: s.locks
    ∧ (∀ b el2, b ≠ a → s.getEl b = some el2 → s'.getEl b = some el2)
    ∧ (∀ b, b ≠ a → s.getEl b = none → (s'.getEl b = none ∨ s'.getEl b = some scElementZero)) := by
  unfold sc_storage_append_el_into_segments at h
  split at h
  · simp at h
  · exact appendLoop_spec _ _ _ _ _ _ h

theorem unlock_ok_elim {s : ScStorage} {a : ScAddr} {s2 : ScStorage}
    (h : sc_storage_element_unlock s a = (ScResult.ok, s2)) :
    a.seg < scAddrSegMax ∧ s2 = s.lockDel a := by
  unfold sc_storage_element_unlock at h
  split at h
  next hcond => simp at h
  next hcond =>
    split at h
    next => simp at h
    next seg hseg =>
      simp only [Prod.mk.injEq, true_and] at h
      exact ⟨Nat.lt_of_not_le hcond, h.symm⟩

theorem lockDel_lockAdd (s : ScStorage) (a : ScAddr) : (s.lockAdd a).lockDel a = s := by
  unfold ScStorage.lockAdd ScStorage.lockDel
  simp [removeFirst_cons_self]

theorem node_new_spec {ctx t : Nat} {s : ScStorage} {addr : ScAddr} {s' : ScStorage}
    (h : sc_storage_node_new ctx t s = some (addr, s'))
    (hne : addr ≠ ScAddr.empty) :
    s'.getEl addr = some { scElementZero with type := sc_type_node ||| t }
    ∧ addr.seg ≤ s.segments.length
    ∧ addr.seg < s'.segments.length
    ∧ addr.seg < scAddrSegMax
    ∧ addr.offset < scSegmentElements
    ∧ s'.maxLoadedSegments = s.maxLoadedSegments
    ∧ s'.locks = s.locks
    ∧ (∀ b el2, b ≠ addr → s.getEl b = some el2 → s'.getEl b = some el2) := by
  unfold sc_storage_node_new at h
  split at h
  · cases h
  · dsimp only [] at h
    split at h
    next s1 heq =>
      simp only [Option.some.injEq, Prod.mk.injEq] at h
      exact absurd h.1.symm hne
    next a1 s1 heq =>
      split at h
      next s2 hequ =>
        simp only [Option.some.injEq, Prod.mk.injEq] at h
        obtain ⟨ha, hs2⟩ := h
        subst ha
        subst hs2
        obtain ⟨hm, hle, hlt, hofflt, hmax, hev, hlk, hpres, _⟩ := append_spec heq
        obtain ⟨hsegmax, hdel⟩ := unlock_ok_elim hequ
        subst hdel
        have hsegeq : ((s1.lockDel a1).segments) = s1.segments := lockDel_segments s1 a1
        refine ⟨?_, hle, ?_, hsegmax, hofflt, hmax, ?_, ?_⟩
        · rw [getEl_congr hsegeq]
          exact hm
        · rw [hsegeq]
          exact hlt
        · show removeFirst a1 s1.locks = s.locks
          rw [hlk]
          exact removeFirst_cons_self a1 s.locks
        · intro b el2 hb hsome
          rw [getEl_congr hsegeq]
          exact hpres b el2 hb hsome
      next hne2 hequ => cases h

theorem link_new_spec {ctx : Nat} {s : ScStorage} {addr : ScAddr} {s' : ScStorage}
    (h : sc_storage_link_new ctx s = some (addr, s'))
    (hne : addr ≠ ScAddr.empty) :
    s'.getEl addr = some { scElementZero with type := sc_type_link }
    ∧ addr.seg ≤ s.segments.length
    ∧ addr.seg < s'.segments.length
    ∧ addr.seg < scAddrSegMax
    ∧ addr.offset < scSegmentElements
    ∧ s'.maxLoadedSegments = s.maxLoadedSegments
    ∧ s'.locks = s.locks
    ∧ (∀ b el2, b ≠ addr → s.getEl b = some el2 → s'.getEl b = some el2) := by
  unfold sc_storage_link_new at h
  dsimp only [] at h
  split at h
  next s1 heq =>
    simp only [Option.some.injEq, Prod.mk.injEq] at h
    exact absurd h.1.symm hne
  next a1 s1 heq =>
    split at h
    next s2 hequ =>
      simp only [Option.some.injEq, Prod.mk.injEq] at h
      obtain ⟨ha, hs2⟩ := h
      subst ha
      subst hs2
      obtain ⟨hm, hle, hlt, hofflt, hmax, hev, hlk, hpres, _⟩ := append_spec heq
      obtain ⟨hsegmax, hdel⟩ := unlock_ok_elim hequ
      subst hdel
      have hsegeq : ((s1.lockDel a1).segments) = s1.segments := lockDel_segments s1 a1
      refine ⟨?_, hle, ?_, hsegmax, hofflt, hmax, ?_, ?_⟩
      · rw [getEl_congr hsegeq]
        exact hm
      · rw [hsegeq]
        exact hlt
      · show removeFirst a1 s1.locks = s.locks
        rw [hlk]
        exact removeFirst_cons_self a1 s.locks
      · intro b el2 hb hsome
        rw [getEl_congr hsegeq]
        exact hpres b el2 hb hsome
    next hne2 hequ => cases h

@[simp] theorem getEl_emitEvent (s : ScStorage) (e : ScEvent) (b : ScAddr) :
    (ScStorage.emitEvent s e).getEl b = s.getEl b := rfl

@[simp] theorem getEl_lockAdd (s : ScStorage) (a b : ScAddr) :
    (ScStorage.lockAdd s a).getEl b = s.getEl b := rfl

@[simp] theorem getEl_lockDel (s : ScStorage) (a b : ScAddr) :
    (ScStorage.lockDel s a).getEl b = s.getEl b := rfl

theorem getEl_unlock_snd (s : ScStorage) (a b : ScAddr) :
    ((sc_storage_element_unlock s a).2).getEl b = s.getEl b :=
  getEl_congr (unlock_snd_segments s a) b

theorem isEmpty_eq_false_of_ne {a : ScAddr} (h : a ≠ ScAddr.empty) : a.isEmpty = false := by
  unfold ScAddr.isEmpty
  cases a with
  | mk sg off =>
    by_cases h1 : sg = 0
    · by_cases h2 : off = 0
      · exact absurd (by rw [h1, h2]; rfl) h
      · simp [h2]
    · simp [h1]

theorem getEl_map_setEl {β : Type} (s : ScStorage) (y : ScAddr) (f : ScElement → ScElement)
    (g : ScElement → β) (hf : ∀ e, g (f e) = g e) (x : ScAddr) :
    ((s.setEl y f).getEl x).map g = (s.getEl x).map g := by
  by_cases hxy : x = y
  · subst hxy
    cases hx : s.getEl x with
    | none => simp only [getEl_setEl_none hx, hx]
    | some e =>
      simp only [getEl_setEl_self hx, hx, Option.map_some']
      exact congrArg some (hf e)
  · rw [getEl_setEl_ne hxy]

theorem getEl_map_setEl_if {β : Type} (c : Prop) [Decidable c] (s : ScStorage) (y : ScAddr)
    (f : ScElement → ScElement) (g : ScElement → β) (hf : ∀ e, g (f e) = g e) (x : ScAddr) :
    (((if c then s.setEl y f else s)).getEl x).map g = (s.getEl x).map g := by
  split
  · exact getEl_map_setEl s y f g hf x
  · rfl

theorem getEl_isSome_setEl {s : ScStorage} {x : ScAddr} (y : ScAddr) (f : ScElement → ScElement)
    (h : ∃ e, s.getEl x = some e) : ∃ e2, (s.setEl y f).getEl x = some e2 := by
  obtain ⟨e, he⟩ := h
  by_cases hxy : x = y
  · subst hxy
    exact ⟨f e, getEl_setEl_self he⟩
  · exact ⟨e, by rw [getEl_setEl_ne hxy]; exact he⟩

theorem getEl_isSome_setEl_if {s : ScStorage} {x : ScAddr} (c : Prop) [Decidable c] (y : ScAddr)
    (f : ScElement → ScElement) (h : ∃ e, s.getEl x = some e) :
    ∃ e2, ((if c then s.setEl y f else s)).getEl x = some e2 := by
  split
  · exact getEl_isSome_setEl y f h
  · exact h

theorem nextOutF_eq (s : ScStorage) (x : ScAddr) :
    nextOutF s x = ((s.getEl x).map ScElement.next_out_arc).getD ScAddr.empty := by
  unfold nextOutF
  cases s.getEl x <;> rfl

theorem nextInF_eq (s : ScStorage) (x : ScAddr) :
    nextInF s x = ((s.getEl x).map ScElement.next_in_arc).getD ScAddr.empty := by
  unfold nextInF
  cases s.getEl x <;> rfl

theorem lock_some_elim {s : ScStorage} {a : ScAddr} {r : ScResult} {el : ScElement}
    {s1 : ScStorage} (h : sc_storage_element_lock s a = (r, some el, s1)) :
    s.getEl a = some el ∧ s1 = s.lockAdd a ∧ r = ScResult.ok ∧ a.seg < scAddrSegMax := by
  unfold sc_storage_element_lock at h
  split at h
  next hcond => simp at h
  next hcond =>
    split at h
    next => simp at h
    next seg hseg =>
      split at h
      next => simp at h
      next el2 hel2 =>
        simp only [Prod.mk.injEq, Option.some.injEq] at h
        obtain ⟨hr, hel, hs1⟩ := h
        subst hel
        refine ⟨?_, hs1.symm, hr.symm, Nat.lt_of_not_le hcond⟩
        rw [getEl_eq, hseg, Option.some_bind, hel2]

theorem followOut_congr {s' s : ScStorage} {w : ScAddr}
    (hstep : ∀ x, x ≠ w → nextOutF s' x = nextOutF s x) :
    ∀ (n : Nat) (a : ScAddr), w ∉ followOut s n a → followOut s' n a = followOut s n a := by
  intro n
  induction n with
  | zero => intro a _; rfl
  | succ m ih =>
    intro a hmem
    rw [followOut] at hmem
    by_cases hE : a.isEmpty
    · rw [followOut, followOut, if_pos hE, if_pos hE]
    · rw [if_neg hE] at hmem
      have hwa : a ≠ w := fun hh => hmem (hh ▸ List.mem_cons_self a _)
      have hmem2 : w ∉ followOut s m (nextOutF s a) := fun hh => hmem (List.mem_cons_of_mem _ hh)
      rw [followOut, followOut, if_neg hE, if_neg hE, hstep a hwa, ih (nextOutF s a) hmem2]

theorem followIn_congr {s' s : ScStorage} {w : ScAddr}
    (hstep : ∀ x, x ≠ w → nextInF s' x = nextInF s x) :
    ∀ (n : Nat) (a : ScAddr), w ∉ followIn s n a → followIn s' n a = followIn s n a := by
  intro n
  induction n with
  | zero => intro a _; rfl
  | succ m ih =>
    intro a hmem
    rw [followIn] at hmem
    by_cases hE : a.isEmpty
    · rw [followIn, followIn, if_pos hE, if_pos hE]
    · rw [if_neg hE] at hmem
      have hwa : a ≠ w := fun hh => hmem (hh ▸ List.mem_cons_self a _)
      have hmem2 : w ∉ followIn s m (nextInF s a) := fun hh => hmem (List.mem_cons_of_mem _ hh)
      rw [followIn, followIn, if_neg hE, if_neg hE, hstep a hwa, ih (nextInF s a) hmem2]

theorem nextOutF_congr_getEl {s1 s2 : ScStorage} (h : ∀ b, s1.getEl b = s2.getEl b)
    (x : ScAddr) : nextOutF s1 x = nextOutF s2 x := by
  rw [nextOutF_eq, nextOutF_eq, h x]

theorem nextInF_congr_getEl {s1 s2 : ScStorage} (h : ∀ b, s1.getEl b = s2.getEl b)
    (x : ScAddr) : nextInF s1 x = nextInF s2 x := by
  rw [nextInF_eq, nextInF_eq, h x]

theorem nextOutF_setEl_ne {s : ScStorage} {x y : ScAddr} (f : ScElement → ScElement)
    (h : x ≠ y) : nextOutF (s.setEl y f) x = nextOutF s x := by
  rw [nextOutF_eq, nextOutF_eq, getEl_setEl_ne h]

theorem nextInF_setEl_ne {s : ScStorage} {x y : ScAddr} (f : ScElement → ScElement)
    (h : x ≠ y) : nextInF (s.setEl y f) x = nextInF s x := by
  rw [nextInF_eq, nextInF_eq, getEl_setEl_ne h]

theorem getEl_unlock_if_snd (c : Prop) [Decidable c] (s : ScStorage) (a b : ScAddr) :
    (((if c then (sc_storage_element_unlock s a).2 else s)).getEl b) = s.getEl b := by
  split
  · exact getEl_unlock_snd s a b
  · rfl

theorem unlockIf_getEl (c : Bool) (a : ScAddr) (s : ScStorage) (b : ScAddr) :
    (unlockIf c a s).getEl b = s.getEl b := by
  unfold unlockIf
  split
  · exact getEl_unlock_snd s a b
  · rfl

theorem arcUnlockAll_getEl (addr beg end_ fo fi : ScAddr) (fOut fIn : Bool) (s : ScStorage)
    (b : ScAddr) : (arcUnlockAll addr beg end_ fo fi fOut fIn s).getEl b = s.getEl b := by
  unfold arcUnlockAll
  rw [getEl_unlock_snd, getEl_unlock_snd, unlockIf_getEl, getEl_unlock_snd, unlockIf_getEl]

theorem arcWriteOutPrev_map_pres {β : Type} (g : ScElement → β)
    (h1 : ∀ e a, g { e with prev_out_arc := a } = g e)
    (addr fo : ScAddr) (fOut : Bool) (s : ScStorage) (x : ScAddr) :
    ((arcWriteOutPrev addr fo fOut s).getEl x).map g = (s.getEl x).map g := by
  unfold arcWriteOutPrev
  exact getEl_map_setEl_if _ _ fo _ g (fun e => h1 e addr) x

theorem arcWriteInPrev_map_pres {β : Type} (g : ScElement → β)
    (h2 : ∀ e a, g { e with prev_in_arc := a } = g e)
    (addr fi : ScAddr) (fIn : Bool) (s : ScStorage) (x : ScAddr) :
    ((arcWriteInPrev addr fi fIn s).getEl x).map g = (s.getEl x).map g := by
  unfold arcWriteInPrev
  exact getEl_map_setEl_if _ _ fi _ g (fun e => h2 e addr) x

theorem arcWriteOutPrev_isSome {s : ScStorage} {x : ScAddr} (addr fo : ScAddr) (fOut : Bool)
    (h : ∃ e, s.getEl x = some e) : ∃ e, (arcWriteOutPrev addr fo fOut s).getEl x = some e := by
  unfold arcWriteOutPrev
  exact getEl_isSome_setEl_if _ _ _ h

theorem arcWriteInPrev_isSome {s : ScStorage} {x : ScAddr} (addr fi : ScAddr) (fIn : Bool)
    (h : ∃ e, s.getEl x = some e) : ∃ e, (arcWriteInPrev addr fi fIn s).getEl x = some e := by
  unfold arcWriteInPrev
  exact getEl_isSome_setEl_if _ _ _ h

theorem arcWrite_map_pres {β : Type} (g : ScElement → β)
    (h1 : ∀ e a, g { e with prev_out_arc := a } = g e)
    (h2 : ∀ e a, g { e with prev_in_arc := a } = g e)
    (h3 : ∀ e a, g { e with first_out_arc := a } = g e)
    (h4 : ∀ e a, g { e with first_in_arc := a } = g e)
    (addr beg end_ fo fi : ScAddr) (fOut fIn : Bool) (s : ScStorage) (x : ScAddr) :
    ((arcWrite addr beg end_ fo fi fOut fIn s).getEl x).map g = (s.getEl x).map g := by
  unfold arcWrite
  rw [getEl_map_setEl _ end_ _ g (fun e => h4 e addr),
    getEl_map_setEl _ beg _ g (fun e => h3 e addr),
    arcWriteInPrev_map_pres g h2, arcWriteOutPrev_map_pres g h1]

theorem arcWrite_first_out (addr beg end_ fo fi : ScAddr) (fOut fIn : Bool) (s : ScStorage)
    (h : ∃ e, s.getEl beg = some e) :
    ((arcWrite addr beg end_ fo fi fOut fIn s).getEl beg).map ScElement.first_out_arc
      = some addr := by
  unfold arcWrite
  rw [getEl_map_setEl _ end_ (fun e => { e with first_in_arc := addr }) ScElement.first_out_arc (fun e => rfl)]
  obtain ⟨e9, he9⟩ := arcWriteInPrev_isSome addr fi fIn (arcWriteOutPrev_isSome addr fo fOut h)
  rw [getEl_setEl_self he9]
  rfl

theorem arcWrite_first_in (addr beg end_ fo fi : ScAddr) (fOut fIn : Bool) (s : ScStorage)
    (h : ∃ e, s.getEl end_ = some e) :
    ((arcWrite addr beg end_ fo fi fOut fIn s).getEl end_).map ScElement.first_in_arc
      = some addr := by
  unfold arcWrite
  obtain ⟨e10, he10⟩ := getEl_isSome_setEl beg _
    (arcWriteInPrev_isSome addr fi fIn (arcWriteOutPrev_isSome addr fo fOut h))
  rw [getEl_setEl_self he10]
  rfl

theorem arcWrite_prev_out (addr beg end_ fo fi : ScAddr) (fIn : Bool) (s : ScStorage)
    (h : ∃ e, s.getEl fo = some e) :
    ((arcWrite addr beg end_ fo fi true fIn s).getEl fo).map ScElement.prev_out_arc
      = some addr := by
  unfold arcWrite
  rw [getEl_map_setEl _ end_ (fun e => { e with first_in_arc := addr }) ScElement.prev_out_arc (fun e => rfl),
    getEl_map_setEl _ beg (fun e => { e with first_out_arc := addr }) ScElement.prev_out_arc (fun e => rfl),
    arcWriteInPrev_map_pres ScElement.prev_out_arc (fun e a => rfl)]
  unfold arcWriteOutPrev
  rw [if_pos rfl]
  obtain ⟨e, he⟩ := h
  rw [getEl_setEl_self he]
  rfl

theorem arcWrite_prev_in (addr beg end_ fo fi : ScAddr) (fOut : Bool) (s : ScStorage)
    (h : ∃ e, (arcWriteOutPrev addr fo fOut s).getEl fi = some e) :
    ((arcWrite addr beg end_ fo fi fOut true s).getEl fi).map ScElement.prev_in_arc
      = some addr := by
  unfold arcWrite
  rw [getEl_map_setEl _ end_ (fun e => { e with first_in_arc := addr }) ScElement.prev_in_arc (fun e => rfl),
    getEl_map_setEl _ beg (fun e => { e with first_out_arc := addr }) ScElement.prev_in_arc (fun e => rfl)]
  unfold arcWriteInPrev
  rw [if_pos rfl]
  obtain ⟨e, he⟩ := h
  rw [getEl_setEl_self he]
  rfl

theorem arcWrite_nextOutF (addr beg end_ fo fi : ScAddr) (fOut fIn : Bool) (s : ScStorage)
    (x : ScAddr) : nextOutF (arcWrite addr beg end_ fo fi fOut fIn s) x = nextOutF s x := by
  rw [nextOutF_eq, nextOutF_eq,
    arcWrite_map_pres ScElement.next_out_arc (fun e a => rfl) (fun e a => rfl)
      (fun e a => rfl) (fun e a => rfl)]

theorem arcWrite_nextInF (addr beg end_ fo fi : ScAddr) (fOut fIn : Bool) (s : ScStorage)
    (x : ScAddr) : nextInF (arcWrite addr beg end_ fo fi fOut fIn s) x = nextInF s x := by
  rw [nextInF_eq, nextInF_eq,
    arcWrite_map_pres ScElement.next_in_arc (fun e a => rfl) (fun e a => rfl)
      (fun e a => rfl) (fun e a => rfl)]

theorem arcLink_spec {ctx : Nat} {el : ScElement} {beg ed fo fi : ScAddr} {fOut fIn : Bool}
    {s : ScStorage} {newA : ScAddr} {s' : ScStorage}
    (h : arcLink ctx el beg ed fo fi fOut fIn s = some (newA, s'))
    (hbeg : ∃ e, s.getEl beg = some e) (hed : ∃ e, s.getEl ed = some e)
    (hfo : fOut = true → ∃ e, s.getEl fo = some e)
    (hfi : fIn = true → ∃ e, s.getEl fi = some e) :
    newA.seg ≤ s.segments.length
    ∧ (s'.getEl beg).map ScElement.first_out_arc = some newA
    ∧ (s'.getEl ed).map ScElement.first_in_arc = some newA
    ∧ (s'.getEl newA).map ScElement.next_out_arc = some fo
    ∧ (s'.getEl newA).map ScElement.next_in_arc = some fi
    ∧ (s'.getEl newA).map ScElement.type = some el.type
    ∧ (s'.getEl newA).map ScElement.begin = some el.begin
    ∧ (s'.getEl newA).map ScElement.end_ = some el.end_
    ∧ (fOut = true → (s'.getEl fo).map ScElement.prev_out_arc = some newA)
    ∧ (fIn = true → (s'.getEl fi).map ScElement.prev_in_arc = some newA)
    ∧ (∀ x, x ≠ newA → nextOutF s' x = nextOutF s x)
    ∧ (∀ x, x ≠ newA → nextInF s' x = nextInF s x) := by
  unfold arcLink at h
  split at h
  next heq => cases h
  next addr s5 heq =>
    split at h
    next => cases h
    next hafi =>
      obtain ⟨hm5, hle5, hlt5, hoff5, hmax5, hev5, hlk5, hpres5, hpresn5⟩ := append_spec heq
      have hb5 : ∃ e, s5.getEl beg = some e := by
        by_cases hba : beg = addr
        · exact ⟨el, by rw [hba]; exact hm5⟩
        · obtain ⟨e, hee⟩ := hbeg
          exact ⟨e, hpres5 beg e hba hee⟩
      have he5 : ∃ e, s5.getEl ed = some e := by
        by_cases hba : ed = addr
        · exact ⟨el, by rw [hba]; exact hm5⟩
        · obtain ⟨e, hee⟩ := hed
          exact ⟨e, hpres5 ed e hba hee⟩
      obtain ⟨bN, hbN⟩ := hb5
      obtain ⟨eN, heN⟩ := he5
      simp only [getEl_emitEvent] at h
      simp only [hbN, heN] at h
      split at h
      next => cases h
      next htypes =>
        split at h
        next => cases h
        next haddr =>
          simp only [Option.some.injEq, Prod.mk.injEq] at h
          obtain ⟨haN, hs'⟩ := h
          subst haN
          subst hs'
          have hne_fo : addr ≠ fo := fun hh => haddr (Or.inl hh)
          have hne_fi : addr ≠ fi := fun hh => haddr (Or.inr hh)
          have hsome7beg : ∃ e,
              (((s5.emitEvent (ScEvent.emitted beg ScEventType.addOutputArc addr)).emitEvent
                (ScEvent.emitted ed ScEventType.addInputArc addr)).setEl addr (fun e =>
                  { e with next_out_arc := fo, next_in_arc := fi })).getEl beg = some e :=
            getEl_isSome_setEl addr _ ⟨bN, hbN⟩
          have hsome7ed : ∃ e,
              (((s5.emitEvent (ScEvent.emitted beg ScEventType.addOutputArc addr)).emitEvent
                (ScEvent.emitted ed ScEventType.addInputArc addr)).setEl addr (fun e =>
                  { e with next_out_arc := fo, next_in_arc := fi })).getEl ed = some e :=
            getEl_isSome_setEl addr _ ⟨eN, heN⟩
          refine ⟨hle5, ?_, ?_, ?_, ?_, ?_, ?_, ?_, ?_, ?_, ?_, ?_⟩
          · rw [arcUnlockAll_getEl]
            exact arcWrite_first_out addr beg ed fo fi fOut fIn _ hsome7beg
          · rw [arcUnlockAll_getEl]
            exact arcWrite_first_in addr beg ed fo fi fOut fIn _ hsome7ed
          · rw [arcUnlockAll_getEl,
              arcWrite_map_pres ScElement.next_out_arc (fun e a => rfl) (fun e a => rfl)
                (fun e a => rfl) (fun e a => rfl),
              getEl_setEl_self (show ((s5.emitEvent (ScEvent.emitted beg
                ScEventType.addOutputArc addr)).emitEvent
                (ScEvent.emitted ed ScEventType.addInputArc addr)).getEl addr = some el from hm5)]
            rfl
          · rw [arcUnlockAll_getEl,
              arcWrite_map_pres ScElement.next_in_arc (fun e a => rfl) (fun e a => rfl)
                (fun e a => rfl) (fun e a => rfl),
              getEl_setEl_self (show ((s5.emitEvent (ScEvent.emitted beg
                ScEventType.addOutputArc addr)).emitEvent
                (ScEvent.emitted ed ScEventType.addInputArc addr)).getEl addr = some el from hm5)]
            rfl
          · rw [arcUnlockAll_getEl,
              arcWrite_map_pres ScElement.type (fun e a => rfl) (fun e a => rfl)
                (fun e a => rfl) (fun e a => rfl),
              getEl_setEl_self (show ((s5.emitEvent (ScEvent.emitted beg
                ScEventType.addOutputArc addr)).emitEvent
                (ScEvent.emitted ed ScEventType.addInputArc addr)).getEl addr = some el from hm5)]
            rfl
          · rw [arcUnlockAll_getEl,
              arcWrite_map_pres ScElement.begin (fun e a => rfl) (fun e a => rfl)
                (fun e a => rfl) (fun e a => rfl),
              getEl_setEl_self (show ((s5.emitEvent (ScEvent.emitted beg
                ScEventType.addOutputArc addr)).emitEvent
                (ScEvent.emitted ed ScEventType.addInputArc addr)).getEl addr = some el from hm5)]
            rfl
          · rw [arcUnlockAll_getEl,
              arcWrite_map_pres ScElement.end_ (fun e a => rfl) (fun e a => rfl)
                (fun e a => rfl) (fun e a => rfl),
              getEl_setEl_self (show ((s5.emitEvent (ScEvent.emitted beg
                ScEventType.addOutputArc addr)).emitEvent
                (ScEvent.emitted ed ScEventType.addInputArc addr)).getEl addr = some el from hm5)]
            rfl
          · intro hfOut
            subst hfOut
            rw [arcUnlockAll_getEl]
            apply arcWrite_prev_out
            obtain ⟨e, hee⟩ := hfo rfl
            refine ⟨e, ?_⟩
            rw [getEl_setEl_ne (Ne.symm hne_fo)]
            show s5.getEl fo = some e
            exact hpres5 fo e (Ne.symm hne_fo) hee
          · intro hfIn
            subst hfIn
            rw [arcUnlockAll_getEl]
            apply arcWrite_prev_in
            apply arcWriteOutPrev_isSome
            obtain ⟨e, hee⟩ := hfi rfl
            refine ⟨e, ?_⟩
            rw [getEl_setEl_ne (Ne.symm hne_fi)]
            show s5.getEl fi = some e
            exact hpres5 fi e (Ne.symm hne_fi) hee
          · intro x hx
            rw [nextOutF_congr_getEl (fun b => arcUnlockAll_getEl addr beg ed fo fi fOut fIn _ b) x,
              arcWrite_nextOutF, nextOutF_setEl_ne _ hx]
            show nextOutF s5 x = nextOutF s x
            rw [nextOutF_eq, nextOutF_eq]
            cases hgx : s.getEl x with
            | some e => simp only [hpres5 x e hx hgx, hgx]
            | none =>
              rcases hpresn5 x hx hgx with h0 | h0 <;> (simp only [h0, hgx]; try rfl)
          · intro x hx
            rw [nextInF_congr_getEl (fun b => arcUnlockAll_getEl addr beg ed fo fi fOut fIn _ b) x,
              arcWrite_nextInF, nextInF_setEl_ne _ hx]
            show nextInF s5 x = nextInF s x
            rw [nextInF_eq, nextInF_eq]
            cases hgx : s.getEl x with
            | some e => simp only [hpres5 x e hx hgx, hgx]
            | none =>
              rcases hpresn5 x hx hgx with h0 | h0 <;> (simp only [h0, hgx]; try rfl)

theorem arcContinue_to_arcLink {ctx : Nat} {el : ScElement} {beg ed fo fi : ScAddr}
    {fOut : Bool} {s2 : ScStorage} {newA : ScAddr} {s' : ScStorage}
    (h : arcContinue ctx el beg ed fo fi fOut s2 = some (newA, s'))
    (hne : newA ≠ ScAddr.empty) :
    ∃ sMid : ScStorage,
      arcLink ctx el beg ed fo fi fOut (!fi.isEmpty) sMid = some (newA, s')
      ∧ sMid.segments = s2.segments
      ∧ (∀ b, sMid.getEl b = s2.getEl b)
      ∧ ((!fi.isEmpty) = true → ∃ e, s2.getEl fi = some e) := by
  unfold arcContinue at h
  split at h
  next hfiE =>
    refine ⟨s2, ?_, rfl, fun b => rfl, ?_⟩
    · simp only [hfiE, Bool.not_true]
      exact h
    · intro hcontra
      rw [hfiE] at hcontra
      cases hcontra
  next hfiE =>
    have hfiF : fi.isEmpty = false := by
      cases hfi2 : fi.isEmpty
      · rfl
      · exact absurd hfi2 hfiE
    split at h
    next r4 s4 heq4 =>
      split at h
      · cases h
      · simp only [Prod.mk.injEq, Option.some.injEq] at h
        exact absurd h.1.symm hne
    next r x s4 heq4 =>
      obtain ⟨hget, hs4, _, _⟩ := lock_some_elim (show sc_storage_element_lock s2 fi = _ from heq4)
      subst hs4
      refine ⟨s2.lockAdd fi, ?_, rfl, fun b => rfl, fun _ => ⟨x, hget⟩⟩
      simp only [hfiF, Bool.not_false]
      exact h

theorem arc_new_to_arcLink {ctx t : Nat} {beg ed : ScAddr} {s : ScStorage} {newA : ScAddr}
    {s' : ScStorage} {bEl eEl : ScElement}
    (hb : s.getEl beg = some bEl) (he : s.getEl ed = some eEl)
    (hbs : beg.seg < scAddrSegMax) (hes : ed.seg < scAddrSegMax)
    (h : sc_storage_arc_new ctx t beg ed s = some (newA, s'))
    (hne : newA ≠ ScAddr.empty) :
    ∃ sMid : ScStorage,
      arcLink ctx
        { scElementZero with
          type := if t &&& sc_type_arc_mask ≠ 0 then t else sc_type_arc_common ||| t,
          begin := beg, end_ := ed }
        beg ed bEl.first_out_arc eEl.first_in_arc
        (!bEl.first_out_arc.isEmpty) (!eEl.first_in_arc.isEmpty) sMid = some (newA, s')
      ∧ sMid.segments = s.segments
      ∧ (∀ b, sMid.getEl b = s.getEl b)
      ∧ ((!bEl.first_out_arc.isEmpty) = true → ∃ e, s.getEl bEl.first_out_arc = some e)
      ∧ ((!eEl.first_in_arc.isEmpty) = true → ∃ e, s.getEl eEl.first_in_arc = some e) := by
  unfold sc_storage_arc_new at h
  split at h
  next => cases h
  next hnt =>
    simp only [sc_storage_element_lock_try, lock_eval hb hbs] at h
    simp only [lock_eval (show (s.lockAdd beg).getEl ed = some eEl from he) hes] at h
    split at h
    next hfoE =>
      obtain ⟨sMid, hL, hseg, hgetEq, hfiSome⟩ := arcContinue_to_arcLink h hne
      refine ⟨sMid, ?_, hseg, hgetEq, ?_, ?_⟩
      · simp only [hfoE, Bool.not_true]
        exact hL
      · intro hcontra
        rw [hfoE] at hcontra
        cases hcontra
      · intro hfi
        obtain ⟨e, hee⟩ := hfiSome hfi
        exact ⟨e, hee⟩
    next hfoE =>
      have hfoF : bEl.first_out_arc.isEmpty = false := by
        cases hfo2 : bEl.first_out_arc.isEmpty
        · rfl
        · exact absurd hfo2 hfoE
      split at h
      next r3 s3 heq3 =>
        split at h
        · cases h
        · simp only [Prod.mk.injEq, Option.some.injEq] at h
          exact absurd h.1.symm hne
      next r y s3 heq3 =>
        obtain ⟨hgetfo, hs3, _, _⟩ :=
          lock_some_elim (show sc_storage_element_lock ((s.lockAdd beg).lockAdd ed)
            bEl.first_out_arc = _ from heq3)
        subst hs3
        obtain ⟨sMid, hL, hseg, hgetEq, hfiSome⟩ := arcContinue_to_arcLink h hne
        refine ⟨sMid, ?_, hseg, hgetEq, fun _ => ⟨y, hgetfo⟩, ?_⟩
        · simp only [hfoF, Bool.not_false]
          exact hL
        · intro hfi
          obtain ⟨e, hee⟩ := hfiSome hfi
          exact ⟨e, hee⟩

theorem getType_eval {s : ScStorage} {a : ScAddr} {el : ScElement}
    (hseg : a.seg < scAddrSegMax) (h : s.getEl a = some el) :
    sc_storage_get_element_type s a = (ScResult.ok, some el.type, s) := by
  obtain ⟨seg, h1, h2⟩ := getEl_some_elim h
  have hu : sc_storage_element_unlock (s.lockAdd a) a = (ScResult.ok, s) := by
    rw [unlock_eval (show (s.lockAdd a).segments[a.seg]? = some seg from h1) hseg,
      lockDel_lockAdd]
  unfold sc_storage_get_element_type
  simp only [lock_eval h hseg]
  simp only [hu]

theorem arc_new_spec {ctx t : Nat} {beg ed : ScAddr} {s : ScStorage} {newA : ScAddr}
    {s' : ScStorage} {bEl eEl : ScElement}
    (hb : s.getEl beg = some bEl) (he : s.getEl ed = some eEl)
    (hbs : beg.seg < scAddrSegMax) (hes : ed.seg < scAddrSegMax)
    (h : sc_storage_arc_new ctx t beg ed s = some (newA, s'))
    (hne : newA ≠ ScAddr.empty) :
    newA.seg ≤ s.segments.length
    ∧ (s'.getEl beg).map ScElement.first_out_arc = some newA
    ∧ (s'.getEl ed).map ScElement.first_in_arc = some newA
    ∧ (s'.getEl newA).map ScElement.next_out_arc = some bEl.first_out_arc
    ∧ (s'.getEl newA).map ScElement.next_in_arc = some eEl.first_in_arc
    ∧ (s'.getEl newA).map ScElement.type
        = some (if t &&& sc_type_arc_mask ≠ 0 then t else sc_type_arc_common ||| t)
    ∧ (s'.getEl newA).map ScElement.begin = some beg
    ∧ (s'.getEl newA).map ScElement.end_ = some ed
    ∧ (bEl.first_out_arc.isEmpty = false →
        (s'.getEl bEl.first_out_arc).map ScElement.prev_out_arc = some newA)
    ∧ (eEl.first_in_arc.isEmpty = false →
        (s'.getEl eEl.first_in_arc).map ScElement.prev_in_arc = some newA)
    ∧ (∀ x, x ≠ newA → nextOutF s' x = nextOutF s x)
    ∧ (∀ x, x ≠ newA → nextInF s' x = nextInF s x) := by
  obtain ⟨sMid, hL, hseg, hgetEq, hfoSome, hfiSome⟩ := arc_new_to_arcLink hb he hbs hes h hne
  have hbegMid : ∃ e, sMid.getEl beg = some e := ⟨bEl, by rw [hgetEq]; exact hb⟩
  have hedMid : ∃ e, sMid.getEl ed = some e := ⟨eEl, by rw [hgetEq]; exact he⟩
  have hfoMid : (!bEl.first_out_arc.isEmpty) = true →
      ∃ e, sMid.getEl bEl.first_out_arc = some e := by
    intro hcond
    obtain ⟨e, hee⟩ := hfoSome hcond
    exact ⟨e, by rw [hgetEq]; exact hee⟩
  have hfiMid : (!eEl.first_in_arc.isEmpty) = true →
      ∃ e, sMid.getEl eEl.first_in_arc = some e := by
    intro hcond
    obtain ⟨e, hee⟩ := hfiSome hcond
    exact ⟨e, by rw [hgetEq]; exact hee⟩
  obtain ⟨R1, R2, R3, R4, R5, R6, R7, R8, R9, R10, R11, R12⟩ :=
    arcLink_spec hL hbegMid hedMid hfoMid hfiMid
  refine ⟨by rw [hseg] at R1; exact R1, R2, R3, R4, R5, R6, R7, R8, ?_, ?_, ?_, ?_⟩
  · intro hfo0
    exact R9 (by rw [hfo0]; rfl)
  · intro hfi0
    exact R10 (by rw [hfi0]; rfl)
  · intro x hx
    rw [R11 x hx]
    exact nextOutF_congr_getEl hgetEq x
  · intro x hx
    rw [R12 x hx]
    exact nextInF_congr_getEl hgetEq x

/-- C1 (counterexample): `free` does not erase exactly the transitive
closure.  In the graph X, Y, W with arcs `B : X → Y`, `e : B → Y`,
`g : B → W`, the arc `g` lies in the closure of Y (follow `first_in` from Y
to `e`, `next_in` to `B`, then `first_out` from `B` to `g`), yet
`free(Y)` returns ok and leaves `g` alive: while traversing, popping `e`
overwrites `B.first_out_arc` with `e.next_out_arc = empty` before `B`'s
output chain is scanned, so `g` is never collected. -/
theorem c1_free_closure_counterexample :
    (aoaState.getEl aoaY).map ScElement.type = some sc_type_node
    ∧ aoaG ∈ specTransitiveClosure aoaState 8 [aoaY] [aoaY]
    ∧ sc_storage_element_free 0 aoaY aoaState = some (ScResult.ok, aoaAfter)
    ∧ (aoaAfter.getEl aoaG).map ScElement.type = some sc_type_arc_common
    ∧ sc_type_arc_common ≠ 0 :=
  ⟨rfl, by decide, rfl, rfl, by decide⟩

/-- C1 (amended): in the scenario `a —e1→ b —e2→ c`, `free(b)` returns ok
and erases exactly b, e1 and e2 (a and c keep their node type), leaves
`a.first_out_arc` and `c.first_in_arc` empty, and releases every lock. -/
theorem c1_free_transitive_amended :
    sc_storage_element_free 0 chainB chainState = some (ScResult.ok, chainAfter)
    ∧ (chainAfter.getEl chainB).map ScElement.type = some 0
    ∧ (chainAfter.getEl chainE1).map ScElement.type = some 0
    ∧ (chainAfter.getEl chainE2).map ScElement.type = some 0
    ∧ (chainAfter.getEl chainA).map ScElement.first_out_arc = some ScAddr.empty
    ∧ (chainAfter.getEl chainC).map ScElement.first_in_arc = some ScAddr.empty
    ∧ (chainAfter.getEl chainA).map ScElement.type = some sc_type_node
    ∧ (chainAfter.getEl chainC).map ScElement.type = some sc_type_node
    ∧ chainAfter.locks = [] :=
  ⟨rfl, rfl, rfl, rfl, rfl, rfl, rfl, rfl, rfl⟩

/-- C3 (code bug): deleting arc `f2 : A → Y` when Y's input list is
`[f1, f2]` (so `f2` is NOT the head) must, per the claim's symmetric
head fix-up, leave `Y.first_in_arc = f1`; the source instead overwrites
`Y.first_in_arc` with `f2.next_in_arc = empty` unconditionally during
traversal (line 333) and its erase-phase head test compares against the
BEGIN element's `first_in_arc` (line 506), so Y's head ends up empty and
the surviving arc `f1` is orphaned.  The prev/next pair repair itself does
happen (`f1.next_in_arc` becomes empty). -/
theorem c3_free_in_head_asymmetry :
    (dblInState.getEl dblInY).map ScElement.first_in_arc = some dblInF1
    ∧ dblInF2 ≠ dblInF1
    ∧ sc_storage_element_free 0 dblInF2 dblInState = some (ScResult.ok, dblInAfter)
    ∧ (dblInAfter.getEl dblInF1).map ScElement.type = some sc_type_arc_common
    ∧ (dblInAfter.getEl dblInF1).map ScElement.next_in_arc = some ScAddr.empty
    ∧ (dblInAfter.getEl dblInY).map ScElement.first_in_arc = some ScAddr.empty :=
  ⟨rfl, by decide, rfl, rfl, rfl, rfl⟩

/-- C4 (counterexample): with `segments_num = max_loaded_segments` and two
live nodes, `create_arc` does not return the empty address — the null
result of `sc_storage_append_el_into_segments` runs into
`g_assert(tmp_el != 0)` (line 623), an abort. -/
theorem c4_capacity_arc_counterexample :
    capState.maxLoadedSegments ≤ capState.segments.length
    ∧ (capState.getEl capA).map ScElement.type = some sc_type_node
    ∧ (capState.getEl capB).map ScElement.type = some sc_type_node
    ∧ sc_storage_arc_new 0 0 capA capB capState = none :=
  ⟨by decide, rfl, rfl, rfl⟩

/-- C5 (code bug): `free` on a successfully locked but empty slot returns
the error result without mutating any element — but the lock acquired on
the slot is still held when it returns (lines 272–275 return before any
unlock). -/
theorem c5_free_empty_lock_leak :
    (c5State.getEl c5Addr).map ScElement.type = some 0
    ∧ c5State.locks = []
    ∧ sc_storage_element_free 0 c5Addr c5State = some (ScResult.error, c5After)
    ∧ c5After.locks = [c5Addr]
    ∧ c5After.segments = c5State.segments
    ∧ c5After.events = c5State.events :=
  ⟨rfl, rfl, rfl, rfl, rfl, rfl⟩

/-- C8 (counterexample): freeing b in `a —e1→ b —e2→ c` deletes the three
elements b, e1, e2, yet exactly one `SC_EVENT_REMOVE_ELEMENT` event is
emitted — the source fires it once, after the unlock loop, with the reused
`addr` variable (here the surviving node a) — so no deleted element gets a
`REMOVE_ELEMENT` notification of its own. -/
theorem c8_remove_element_counterexample :
    sc_storage_element_free 0 chainB chainState = some (ScResult.ok, chainAfter)
    ∧ (chainAfter.getEl chainB).map ScElement.type = some 0
    ∧ (chainAfter.getEl chainE1).map ScElement.type = some 0
    ∧ (chainAfter.getEl chainE2).map ScElement.type = some 0
    ∧ (chainAfter.events.filter isRemoveElementEv).length = 1
    ∧ ScEvent.emitted chainB ScEventType.removeElement chainB ∉ chainAfter.events
    ∧ ScEvent.emitted chainE1 ScEventType.removeElement chainE1 ∉ chainAfter.events
    ∧ ScEvent.emitted chainE2 ScEventType.removeElement chainE2 ∉ chainAfter.events :=
  ⟨rfl, rfl, rfl, rfl, by decide, by decide, by decide, by decide⟩

/-- C8 (amended): in the chain scenario, before `free(b)` returns the sink
receives the per-element deletion notification for each of b, e2, e1 and
the `REMOVE_OUTPUT_ARC` / `REMOVE_INPUT_ARC` pair for each deleted arc, and
then a single `SC_EVENT_REMOVE_ELEMENT` event carrying the last-unlocked
address (the surviving node a) — not one element event per deleted
element.  The first four entries are the add-arc events of building the
scenario. -/
theorem c8_free_events_amended :
    sc_storage_element_free 0 chainB chainState = some (ScResult.ok, chainAfter)
    ∧ chainAfter.events =
      [ScEvent.emitted chainA ScEventType.addOutputArc chainE1,
       ScEvent.emitted chainB ScEventType.addInputArc chainE1,
       ScEvent.emitted chainB ScEventType.addOutputArc chainE2,
       ScEvent.emitted chainC ScEventType.addInputArc chainE2,
       ScEvent.notifyElementDeleted chainB,
       ScEvent.notifyElementDeleted chainE2,
       ScEvent.emitted chainB ScEventType.removeOutputArc chainE2,
       ScEvent.emitted chainC ScEventType.removeInputArc chainE2,
       ScEvent.notifyElementDeleted chainE1,
       ScEvent.emitted chainA ScEventType.removeOutputArc chainE1,
       ScEvent.emitted chainB ScEventType.removeInputArc chainE1,
       ScEvent.emitted chainA ScEventType.removeElement chainA] :=
  ⟨rfl, rfl⟩

/-- C4 (amended): when `segments_num` has reached `max_loaded_segments`,
`create_node` and `create_link` return the empty address and leave the
store entirely unchanged (counter, elements, cache, locks, events);
`create_arc`, however, aborts on `g_assert(tmp_el != 0)` instead of
returning the empty address (see the counterexample). -/
theorem c4_capacity_amended :
    ∀ (ctx t : Nat) (s : ScStorage),
      s.maxLoadedSegments ≤ s.segments.length →
      sc_type_arc_mask &&& t = 0 →
      sc_storage_node_new ctx t s = some (ScAddr.empty, s)
      ∧ sc_storage_link_new ctx s = some (ScAddr.empty, s) := by
  intro ctx t s hcap ht
  have happ : ∀ el, sc_storage_append_el_into_segments ctx el s = (none, s) := by
    intro el
    unfold sc_storage_append_el_into_segments
    rw [if_pos hcap]
  constructor
  · unfold sc_storage_node_new
    rw [if_neg (fun hh => hh ht)]
    simp only [happ]
  · unfold sc_storage_link_new
    simp only [happ]

/-- Witness for the amended C4 at the concrete full store of the capacity
scenario. -/
theorem c4_capacity_amended_witness :
    capState.maxLoadedSegments ≤ capState.segments.length
    ∧ sc_storage_node_new 0 0 capState = some (ScAddr.empty, capState)
    ∧ sc_storage_link_new 0 capState = some (ScAddr.empty, capState) :=
  ⟨by decide, (c4_capacity_amended 0 0 capState (by decide) (by decide)).1,
    (c4_capacity_amended 0 0 capState (by decide) (by decide)).2⟩

/-- C9: a node or link created by `sc_storage_node_new` /
`sc_storage_link_new` starts as the all-zero record with only its type
set: the list heads and arc fields are the empty address and the content
checksum bytes are all zero, because the slot is populated from
`memset(&el, 0, sizeof(el))` with only `flags.type` assigned. -/
theorem c9_fresh_element_zeroed :
    ∀ (ctx t : Nat) (s : ScStorage) (addr : ScAddr) (s' : ScStorage),
      (sc_storage_node_new ctx t s = some (addr, s') → addr ≠ ScAddr.empty →
        s'.getEl addr = some { scElementZero with type := sc_type_node ||| t })
      ∧ (sc_storage_link_new ctx s = some (addr, s') → addr ≠ ScAddr.empty →
        s'.getEl addr = some { scElementZero with type := sc_type_link }) := by
  intro ctx t s addr s'
  exact ⟨fun h hne => (node_new_spec h hne).1, fun h hne => (link_new_spec h hne).1⟩

/-- Witness for C9 at the first node of the chain scenario and a link
created in the empty store. -/
theorem c9_fresh_element_zeroed_witness :
    sc_storage_node_new 0 0 storeEmpty = some (chainA, chainStep1.2)
    ∧ chainA ≠ ScAddr.empty
    ∧ chainStep1.2.getEl chainA = some { scElementZero with type := sc_type_node ||| 0 }
    ∧ sc_storage_link_new 0 storeEmpty = some (linkStep.1, linkStep.2)
    ∧ linkStep.1 ≠ ScAddr.empty
    ∧ linkStep.2.getEl linkStep.1 = some { scElementZero with type := sc_type_link } :=
  ⟨rfl, by decide,
    (c9_fresh_element_zeroed 0 0 storeEmpty chainA chainStep1.2).1 rfl (by decide),
    rfl, by decide,
    (c9_fresh_element_zeroed 0 0 storeEmpty linkStep.1 linkStep.2).2 rfl (by decide)⟩

/-- C10: for every address whose segment is published and whose slot
exists, `sc_storage_get_element_type` returns ok and hands out the raw type
field — it never inspects the type, so an empty (freed or never-allocated)
slot yields ok with type 0 rather than an error, and the state is returned
unchanged (the lock is acquired and released). -/
theorem c10_get_type_no_empty_check :
    ∀ (s : ScStorage) (a : ScAddr) (el : ScElement),
      a.seg < scAddrSegMax → s.getEl a = some el →
      sc_storage_get_element_type s a = (ScResult.ok, some el.type, s) := by
  intro s a el hseg h
  exact getType_eval hseg h

/-- Witness for C10 at a never-allocated (empty, type 0) slot of the chain
scenario — `get_type` succeeds and reports type 0. -/
theorem c10_get_type_witness :
    chainState.getEl ⟨1, 2⟩ = some scElementZero
    ∧ sc_storage_get_element_type chainState ⟨1, 2⟩ = (ScResult.ok, some 0, chainState) :=
  ⟨rfl, c10_get_type_no_empty_check chainState ⟨1, 2⟩ scElementZero (by decide) rfl⟩

/-- C7: `sc_storage_change_element_subtype` fails with invalid-params
exactly when the requested type carries element-class bits; otherwise it
overwrites only the non-class bits of the slot's type — keeping the class
bits and every other field of the element — and touches no other slot and
no lock. -/
theorem c7_change_subtype_spec :
    ∀ (s : ScStorage) (addr : ScAddr) (t : Nat) (el : ScElement),
      addr.seg < scAddrSegMax → s.getEl addr = some el →
      (((sc_storage_change_element_subtype s addr t).1 = ScResult.errorInvalidParams)
        ↔ t &&& sc_type_element_mask ≠ 0)
      ∧ (t &&& sc_type_element_mask = 0 →
          (sc_storage_change_element_subtype s addr t).2.getEl addr =
            some { el with
              type := (el.type &&& sc_type_element_mask) ||| (t &&& sc_type_not_element_mask) }
          ∧ (∀ b, b ≠ addr →
              (sc_storage_change_element_subtype s addr t).2.getEl b = s.getEl b)
          ∧ (sc_storage_change_element_subtype s addr t).2.locks = s.locks) := by
  intro s addr t el hseg h
  by_cases ht : t &&& sc_type_element_mask ≠ 0
  · have hres : sc_storage_change_element_subtype s addr t = (ScResult.errorInvalidParams, s) := by
      unfold sc_storage_change_element_subtype
      rw [if_pos ht]
    rw [hres]
    exact ⟨⟨fun _ => ht, fun _ => rfl⟩, fun ht0 => absurd ht0 ht⟩
  · have ht0 : t &&& sc_type_element_mask = 0 := Decidable.not_not.mp ht
    have hlockget : (s.lockAdd addr).getEl addr = some el := by
      rw [getEl_congr (lockAdd_segments s addr)]
      exact h
    have hset := getEl_setEl_self (f := fun e =>
      { e with type := (e.type &&& sc_type_element_mask) ||| (t &&& sc_type_not_element_mask) })
      hlockget
    obtain ⟨seg2, hseg2, _⟩ := getEl_some_elim hset
    have hres : sc_storage_change_element_subtype s addr t =
        (ScResult.ok,
          (((s.lockAdd addr).setEl addr (fun e =>
            { e with type := (e.type &&& sc_type_element_mask) ||| (t &&& sc_type_not_element_mask) })).lockDel addr)) := by
      unfold sc_storage_change_element_subtype
      rw [if_neg ht]
      simp only [lock_eval h hseg]
      rw [unlock_eval hseg2 hseg]
    rw [hres]
    refine ⟨⟨fun hok => ScResult.noConfusion hok, fun hx => absurd hx ht⟩, fun _ => ⟨?_, ?_, ?_⟩⟩
    · rw [getEl_congr (lockDel_segments _ addr)]
      exact hset
    · intro b hb
      rw [getEl_congr (lockDel_segments _ addr), getEl_setEl_ne hb,
        getEl_congr (lockAdd_segments s addr)]
    · show removeFirst addr (addr :: s.locks) = s.locks
      exact removeFirst_cons_self addr s.locks

/-- Witness for C7 at node a of the chain scenario with the pure subtype
bit 32: no class bits, so the call succeeds and rewrites only the non-class
bits. -/
theorem c7_change_subtype_witness :
    chainState.getEl chainA = some c7El
    ∧ ¬(((sc_storage_change_element_subtype chainState chainA 32).1 = ScResult.errorInvalidParams))
    ∧ (sc_storage_change_element_subtype chainState chainA 32).2.getEl chainA =
        some { c7El with
          type := (c7El.type &&& sc_type_element_mask) ||| (32 &&& sc_type_not_element_mask) }
    ∧ (sc_storage_change_element_subtype chainState chainA 32).2.locks = chainState.locks :=
  ⟨rfl,
    fun hx => absurd
      (((c7_change_subtype_spec chainState chainA 32 c7El (by decide) rfl).1).mp hx)
      (by decide),
    ((c7_change_subtype_spec chainState chainA 32 c7El (by decide) rfl).2 (by decide)).1,
    ((c7_change_subtype_spec chainState chainA 32 c7El (by decide) rfl).2 (by decide)).2.2⟩

/-- C2: a successful `create_arc` prepends the new arc to both endpoint
lists: `begin.first_out_arc` and `end.first_in_arc` become the new address,
the new arc's `next_out_arc` / `next_in_arc` are the previous heads, a
previous head's `prev_out_arc` / `prev_in_arc` is set to the new address,
and — when the new address was not already on the old chain — traversing
`begin.first_out_arc` via `next_out_arc` (resp. `end.first_in_arc` via
`next_in_arc`) reaches the new arc exactly once. -/
theorem c2_arc_new_prepend :
    ∀ (ctx t : Nat) (beg ed : ScAddr) (s : ScStorage) (newA : ScAddr) (s' : ScStorage)
      (bEl eEl : ScElement) (n : Nat),
      s.getEl beg = some bEl → s.getEl ed = some eEl →
      beg.seg < scAddrSegMax → ed.seg < scAddrSegMax →
      sc_storage_arc_new ctx t beg ed s = some (newA, s') →
      newA ≠ ScAddr.empty →
      (s'.getEl beg).map ScElement.first_out_arc = some newA
      ∧ (s'.getEl ed).map ScElement.first_in_arc = some newA
      ∧ (s'.getEl newA).map ScElement.next_out_arc = some bEl.first_out_arc
      ∧ (s'.getEl newA).map ScElement.next_in_arc = some eEl.first_in_arc
      ∧ (bEl.first_out_arc.isEmpty = false →
          (s'.getEl bEl.first_out_arc).map ScElement.prev_out_arc = some newA)
      ∧ (eEl.first_in_arc.isEmpty = false →
          (s'.getEl eEl.first_in_arc).map ScElement.prev_in_arc = some newA)
      ∧ (newA ∉ followOut s n bEl.first_out_arc →
          followOut s' (n + 1) newA = newA :: followOut s n bEl.first_out_arc
          ∧ (followOut s' (n + 1) newA).count newA = 1)
      ∧ (newA ∉ followIn s n eEl.first_in_arc →
          followIn s' (n + 1) newA = newA :: followIn s n eEl.first_in_arc
          ∧ (followIn s' (n + 1) newA).count newA = 1) := by
  intro ctx t beg ed s newA s' bEl eEl n hb he hbs hes h hne
  obtain ⟨hle, R2, R3, R4, R5, R6, R7, R8, R9, R10, R11, R12⟩ :=
    arc_new_spec hb he hbs hes h hne
  have hEf : newA.isEmpty = false := isEmpty_eq_false_of_ne hne
  refine ⟨R2, R3, R4, R5, R9, R10, ?_, ?_⟩
  · intro hnm
    have hn : nextOutF s' newA = bEl.first_out_arc := by
      rw [nextOutF_eq, R4]
      rfl
    have hchain : followOut s' (n + 1) newA = newA :: followOut s n bEl.first_out_arc := by
      rw [followOut, hEf]
      simp only [Bool.false_eq_true, if_false]
      rw [hn, followOut_congr R11 n _ hnm]
    refine ⟨hchain, ?_⟩
    rw [hchain, List.count_cons_self, List.count_eq_zero.mpr hnm]
  · intro hnm
    have hn : nextInF s' newA = eEl.first_in_arc := by
      rw [nextInF_eq, R5]
      rfl
    have hchain : followIn s' (n + 1) newA = newA :: followIn s n eEl.first_in_arc := by
      rw [followIn, hEf]
      simp only [Bool.false_eq_true, if_false]
      rw [hn, followIn_congr R12 n _ hnm]
    refine ⟨hchain, ?_⟩
    rw [hchain, List.count_cons_self, List.count_eq_zero.mpr hnm]

/-- Witness for C2 at the "second arc prepends" scenario: e2 := arc(a, b)
added when e is already the head of both lists. -/
theorem c2_arc_new_prepend_witness :
    twoArcState1.getEl twoArcA = some twoArcBEl
    ∧ twoArcState1.getEl twoArcB = some twoArcEEl
    ∧ sc_storage_arc_new 0 0 twoArcA twoArcB twoArcState1 = some (twoArcE2, twoArcState2)
    ∧ twoArcE2 ≠ ScAddr.empty
    ∧ twoArcE2 ∉ followOut twoArcState1 3 twoArcBEl.first_out_arc
    ∧ (twoArcState2.getEl twoArcA).map ScElement.first_out_arc = some twoArcE2
    ∧ (twoArcState2.getEl twoArcB).map ScElement.first_in_arc = some twoArcE2
    ∧ (twoArcState2.getEl twoArcE2).map ScElement.next_out_arc = some twoArcE
    ∧ (twoArcState2.getEl twoArcE).map ScElement.prev_out_arc = some twoArcE2
    ∧ (followOut twoArcState2 4 twoArcE2).count twoArcE2 = 1 := by
  have H := c2_arc_new_prepend 0 0 twoArcA twoArcB twoArcState1 twoArcE2 twoArcState2
    twoArcBEl twoArcEEl 3 rfl rfl (by decide) (by decide) rfl (by decide)
  exact ⟨rfl, rfl, rfl, by decide, by decide, H.1, H.2.1, H.2.2.1,
    H.2.2.2.2.1 (by decide), (H.2.2.2.2.2.2.1 (by decide)).2⟩

/-- C6: after a successful creation returning a non-empty address,
`get_type` returns ok with the composed type: `sc_type_node ||| type` for
nodes, `sc_type_link` for links, and for arcs the requested type with
`sc_type_arc_common` ORed in when it has no arc-class bits. -/
theorem c6_created_type_composed :
    ∀ (ctx t : Nat) (s : ScStorage) (addr : ScAddr) (s' : ScStorage) (beg ed : ScAddr)
      (bEl eEl : ScElement),
      ((sc_storage_node_new ctx t s = some (addr, s') → addr ≠ ScAddr.empty →
        sc_storage_get_element_type s' addr = (ScResult.ok, some (sc_type_node ||| t), s'))
      ∧ (sc_storage_link_new ctx s = some (addr, s') → addr ≠ ScAddr.empty →
        sc_storage_get_element_type s' addr = (ScResult.ok, some sc_type_link, s'))
      ∧ (s.getEl beg = some bEl → s.getEl ed = some eEl →
        beg.seg < scAddrSegMax → ed.seg < scAddrSegMax → s.segments.length < scAddrSegMax →
        sc_storage_arc_new ctx t beg ed s = some (addr, s') → addr ≠ ScAddr.empty →
        sc_storage_get_element_type s' addr =
          (ScResult.ok,
            some (if t &&& sc_type_arc_mask ≠ 0 then t else sc_type_arc_common ||| t), s'))) := by
  intro ctx t s addr s' beg ed bEl eEl
  refine ⟨?_, ?_, ?_⟩
  · intro h hne
    obtain ⟨hm, _, _, hsegmax, _, _, _, _⟩ := node_new_spec h hne
    exact getType_eval hsegmax hm
  · intro h hne
    obtain ⟨hm, _, _, hsegmax, _, _, _, _⟩ := link_new_spec h hne
    exact getType_eval hsegmax hm
  · intro hb he hbs hes hlen h hne
    obtain ⟨hle, _, _, _, _, R6, _⟩ := arc_new_spec hb he hbs hes h hne
    cases hget : s'.getEl addr with
    | none => rw [hget] at R6; simp at R6
    | some y =>
      rw [hget] at R6
      simp only [Option.map_some', Option.some.injEq] at R6
      have hsm : addr.seg < scAddrSegMax := lt_of_le_of_lt hle hlen
      have hT := getType_eval hsm hget
      rw [R6] at hT
      exact hT

/-- Witness for C6: the node a, a link in the empty store, and the arc e1
of the chain scenario all read back their composed types. -/
theorem c6_created_type_composed_witness :
    sc_storage_node_new 0 0 storeEmpty = some (chainA, chainStep1.2)
    ∧ sc_storage_get_element_type chainStep1.2 chainA
        = (ScResult.ok, some sc_type_node, chainStep1.2)
    ∧ sc_storage_link_new 0 storeEmpty = some (linkStep.1, linkStep.2)
    ∧ sc_storage_get_element_type linkStep.2 linkStep.1
        = (ScResult.ok, some sc_type_link, linkStep.2)
    ∧ sc_storage_arc_new 0 0 chainA chainB chainStep3.2 = some (chainE1, chainStep4.2)
    ∧ sc_storage_get_element_type chainStep4.2 chainE1
        = (ScResult.ok, some sc_type_arc_common, chainStep4.2) := by
  refine ⟨rfl, ?_, rfl, ?_, rfl, ?_⟩
  · exact (c6_created_type_composed 0 0 storeEmpty chainA chainStep1.2 ScAddr.empty
      ScAddr.empty scElementZero scElementZero).1 rfl (by decide)
  · exact (c6_created_type_composed 0 0 storeEmpty linkStep.1 linkStep.2 ScAddr.empty
      ScAddr.empty scElementZero scElementZero).2.1 rfl (by decide)
  · exact (c6_created_type_composed 0 0 chainStep3.2 chainE1 chainStep4.2 chainA chainB
      c6ArcBEl c6ArcEEl).2.2 rfl rfl (by decide) (by decide) (by decide) rfl (by decide)

end ScStore
